import Mathlib

/-!
# SenSyntax problem-assistance backend: a shallow embedding

This file embeds the two server variants of the SenSyntax repository
(`src/backend/problem-assistance-server-fixed.js`, suffix `F`, and
`src/backend/problem-assistance-server.js`, the lenient variant, suffix `L`)
and proves the specification claims about them.

Strings are modelled as `List Char` at the lower (regex) level and as Lean
`String` elsewhere.  JavaScript regular-expression character classes are
modelled over ASCII (`\s` is the ASCII whitespace set, `\w` is
`[A-Za-z0-9_]`, `.` excludes the line terminators `\n`/`\r`); the inputs
appearing in the repository are ASCII, where the JS classes coincide with
this model.
-/

namespace SenSyntax

/-! ## Character classes of the JS regexes -/

def isWordChar (c : Char) : Bool := c.isAlphanum || c == '_'

def isIdentStart (c : Char) : Bool := c.isAlpha || c == '_'

def isSpaceChar (c : Char) : Bool :=
  c == ' ' || c == '\t' || c == '\n' || c == '\r' || c == '\x0b' || c == '\x0c'

def isDotChar (c : Char) : Bool := !(c == '\n' || c == '\r')

/-- The class `[;{}=()]` from `/^\s{2,}.*[;{}=()].*$/`. -/
def isCodeSym (c : Char) : Bool :=
  c == ';' || c == '\x7b' || c == '\x7d' || c == '=' || c == '(' || c == ')'

/-! ## A small backtracking regex engine

`Re` covers exactly the constructs used by `cleanResponseText`'s patterns
(with `X+` desugared to `X·X*` and `X\x7b2,\x7d` to `X·X·X*`).  `bol`/`eol` are
the multiline `^`/`$` anchors.  `mall` enumerates the ways a regex can match
a prefix of the input, in JS backtracking priority order (greedy stars try
the longest iteration count first); each element is the pair of the
line-start flag after the match and the remaining suffix. -/

inductive Re : Type
  | eps : Re
  | chr : (Char → Bool) → Re
  | lit : List Char → Re
  | seq : Re → Re → Re
  | star : Re → Re
  | bol : Re
  | eol : Re

/-- Line-start flag after additionally consuming `l` (JS `^m` matches at the
start of the input and right after a `'\n'`). -/
def afterFlag (b : Bool) (l : List Char) : Bool :=
  match l.getLast? with
  | none => b
  | some c => c == '\n'

/-- Structural size of a regex, used to provision matching fuel. -/
def Re.size : Re → Nat
  | .eps => 1
  | .chr _ => 1
  | .lit _ => 1
  | .seq r₁ r₂ => r₁.size + r₂.size + 1
  | .star r₁ => r₁.size + 1
  | .bol => 1
  | .eol => 1

def mall (f : Nat) (r : Re) (b : Bool) (s : List Char) :
    List (Bool × Nat × List Char) :=
  match f with
  | 0 => []
  | f + 1 =>
    match r with
    | .eps => [(b, 0, s)]
    | .chr p =>
      match s with
      | [] => []
      | c :: cs => if p c then [(c == '\n', 1, cs)] else []
    | .lit l =>
      if l.isPrefixOf s then [(afterFlag b l, l.length, s.drop l.length)] else []
    | .seq r₁ r₂ =>
      (mall f r₁ b s).flatMap (fun p =>
        (mall f r₂ p.1 p.2.2).map (fun q => (q.1, p.2.1 + q.2.1, q.2.2)))
    | .star r₁ =>
      ((mall f r₁ b s).flatMap (fun p =>
        if p.2.1 ≠ 0 then
          (mall f (.star r₁) p.1 p.2.2).map (fun q => (q.1, p.2.1 + q.2.1, q.2.2))
        else [])) ++ [(b, 0, s)]
    | .bol => if b then [(b, 0, s)] else []
    | .eol =>
      match s with
      | [] => [(b, 0, s)]
      | c :: _ => if c == '\n' then [(b, 0, s)] else []

/-- Fuel that always suffices for `mall` on inputs of length at most
`bound`: every recursion step either moves to a strict subterm of the
regex or, for a star iteration, consumes at least one input character
before revisiting the same star. -/
def matchFuel (r : Re) (bound : Nat) : Nat := (r.size + 2) * (bound + 2)

/-- The JS engine's preferred match at the current position: the head of the
alternative list, rejected if it consumed nothing (all the patterns of the
source can only match nonempty text, so this agrees with JS).  `mf` is the
matching fuel, provisioned by the caller via `matchFuel`. -/
def firstMatch (r : Re) (b : Bool) (s : List Char) (mf : Nat) :
    Option (Bool × List Char) :=
  match (mall mf r b s).head? with
  | some p => if p.2.1 ≠ 0 then some (p.1, p.2.2) else none
  | none => none

/-- One pass of JS `String.prototype.replace` with a `g` (or `gm`) regex and a
constant replacement: scan left to right, at each position emit the
replacement and jump over the preferred match, otherwise keep the character
and advance by one.  `mf` is a fuel for `firstMatch` provisioned once by
`jsReplace` for the whole input (suffixes need no more fuel). -/
def scanRep (r : Re) (repl : List Char) (mf : Nat) : Nat → Bool → List Char → List Char
  | 0, _, s => s
  | _ + 1, _, [] => []
  | f + 1, b, c :: cs =>
    match firstMatch r b (c :: cs) mf with
    | some p => repl ++ scanRep r repl mf f p.1 p.2
    | none => c :: scanRep r repl mf f (c == '\n') cs

/-- Tail-recursive form of `scanRep` (the kernel evaluates it in constant
stack); `scanRepAcc_eq` relates it to `scanRep`, which the proofs use. -/
def scanRepAcc (r : Re) (repl : List Char) (mf : Nat) :
    Nat → Bool → List Char → List Char → List Char
  | 0, _, acc, s => acc.reverse ++ s
  | _ + 1, _, acc, [] => acc.reverse
  | f + 1, b, acc, c :: cs =>
    match firstMatch r b (c :: cs) mf with
    | some p => scanRepAcc r repl mf f p.1 (repl.reverse ++ acc) p.2
    | none => scanRepAcc r repl mf f (c == '\n') (c :: acc) cs

theorem scanRepAcc_eq (r : Re) (repl : List Char) (mf : Nat) :
    ∀ (f : Nat) (b : Bool) (acc s : List Char),
      scanRepAcc r repl mf f b acc s = acc.reverse ++ scanRep r repl mf f b s := by
  intro f
  induction f with
  | zero => intro b acc s; rw [scanRepAcc, scanRep]
  | succ f ih =>
    intro b acc s
    rcases s with _ | ⟨c, cs⟩
    · rw [scanRepAcc, scanRep]
      simp
    · rw [scanRepAcc, scanRep]
      rcases hm : firstMatch r b (c :: cs) mf with _ | p
      · simp only [ih]
        simp [List.append_assoc]
      · simp only [ih]
        simp [List.append_assoc]

def jsReplace (r : Re) (repl : List Char) (s : List Char) : List Char :=
  scanRepAcc r repl (matchFuel r s.length) (s.length + 1) true [] s

theorem jsReplace_eq_scanRep (r : Re) (repl : List Char) (s : List Char) :
    jsReplace r repl s
      = scanRep r repl (matchFuel r s.length) (s.length + 1) true s := by
  rw [jsReplace, scanRepAcc_eq]
  simp

/-! ## The two backtick passes of `cleanResponseText`

`/\x60\x60\x60[\s\S]*?\x60\x60\x60/g` (fenced blocks, lazy) and
`/\x60[^\x60]*\x60/g` (inline spans) are implemented directly: both are
deterministic scans, which keeps the counting proofs below elementary. -/

/-- The suffix right after the first backtick of `l`, if any. -/
def dropThroughTick (l : List Char) : Option (List Char) :=
  match l.dropWhile (· != '`') with
  | [] => none
  | _ :: t => some t

theorem dropThroughTick_length {l t : List Char} (h : dropThroughTick l = some t) :
    t.length < l.length + 1 := by
  unfold dropThroughTick at h
  rcases hd : l.dropWhile (· != '`') with _ | ⟨c, u⟩
  · rw [hd] at h; exact absurd h (by simp)
  · rw [hd] at h
    have hlen : (l.dropWhile (· != '`')).length ≤ l.length :=
      (List.dropWhile_suffix _).sublist.length_le
    rw [hd] at hlen
    simp only [Option.some.injEq] at h
    subst h
    simp at hlen
    omega

/-- JS `text.replace(/\x60[^\x60]*\x60/g, "")`: on a backtick, drop through the
next backtick if there is one, otherwise no further match is possible and the
rest is kept verbatim.  Structural recursion on a fuel that the wrapper
`stripInline` provisions with the input length. -/
def stripInlineGo : Nat → List Char → List Char
  | 0, s => s
  | _ + 1, [] => []
  | f + 1, c :: cs =>
    if c == '`' then
      match dropThroughTick cs with
      | some t => stripInlineGo f t
      | none => c :: cs
    else c :: stripInlineGo f cs

def stripInline (s : List Char) : List Char := stripInlineGo (s.length + 1) s

/-- The suffix right after the first occurrence of three consecutive
backticks in `l`, if any (the lazy `[\s\S]*?` picks the earliest closer). -/
def fenceSplit : List Char → Option (List Char)
  | c₀ :: c₁ :: c₂ :: t =>
    if c₀ == '`' && c₁ == '`' && c₂ == '`' then some t
    else fenceSplit (c₁ :: c₂ :: t)
  | _ => none

theorem fenceSplit_length {l t : List Char} (h : fenceSplit l = some t) :
    t.length < l.length := by
  induction l with
  | nil => exact absurd h (by simp [fenceSplit])
  | cons c cs ih =>
    rcases cs with _ | ⟨c₁, cs₁⟩
    · exact absurd h (by simp [fenceSplit])
    rcases cs₁ with _ | ⟨c₂, cs₂⟩
    · exact absurd h (by simp [fenceSplit])
    rw [fenceSplit] at h
    split at h
    · simp only [Option.some.injEq] at h
      subst h; simp; omega
    · have := ih h
      simp at this ⊢
      omega

/-- JS `text.replace(/\x60\x60\x60[\s\S]*?\x60\x60\x60/g, "")`: at a run of three
backticks, drop through the earliest closing run if one exists; otherwise the
match attempt fails and the scan advances one character (a later overlapping
run of backticks may still open a fence).  Structural recursion on a fuel
that the wrapper `stripFences` provisions with the input length. -/
def stripFencesGo : Nat → List Char → List Char
  | 0, s => s
  | f + 1, c₀ :: c₁ :: c₂ :: rest =>
    if c₀ == '`' && c₁ == '`' && c₂ == '`' then
      match fenceSplit rest with
      | some t => stripFencesGo f t
      | none => c₀ :: stripFencesGo f (c₁ :: c₂ :: rest)
    else c₀ :: stripFencesGo f (c₁ :: c₂ :: rest)
  | _ + 1, [c₀, c₁] => [c₀, c₁]
  | _ + 1, [c₀] => [c₀]
  | _ + 1, [] => []

def stripFences (s : List Char) : List Char := stripFencesGo (s.length + 1) s

/-! ## The `codePatterns` regexes -/

def Re.cat : List Re → Re
  | [] => .eps
  | [r] => r
  | r :: rs => .seq r (Re.cat rs)

def strLit (s : String) : Re := .lit s.data

/-- `\s*` -/
def sp0 : Re := .star (.chr isSpaceChar)
/-- `\s+` -/
def sp1 : Re := .seq (.chr isSpaceChar) (.star (.chr isSpaceChar))
/-- `\w+` (also used for `[a-zA-Z0-9_]*` after an explicit first char) -/
def wd1 : Re := .seq (.chr isWordChar) (.star (.chr isWordChar))
/-- `[a-zA-Z_][a-zA-Z0-9_]*` -/
def ident1 : Re := .seq (.chr isIdentStart) (.star (.chr isWordChar))
/-- `.*` -/
def dot0 : Re := .star (.chr isDotChar)
/-- `\d+` -/
def dig1 : Re := .seq (.chr Char.isDigit) (.star (.chr Char.isDigit))

def one (c : Char) : Re := .chr (· == c)

/-- `/^\s\x7b2,\x7d.*[;\x7b\x7d=()].*$/gm` -/
def reIndentSym : Re :=
  Re.cat [.bol, .chr isSpaceChar, .chr isSpaceChar, sp0, dot0, .chr isCodeSym, dot0, .eol]

/-- `/^\t+.*[;\x7b\x7d=()].*$/gm` -/
def reTabSym : Re :=
  Re.cat [.bol, one '\t', .star (one '\t'), dot0, .chr isCodeSym, dot0, .eol]

/-- `/^def\s+\w+\s*\(.*\):/gm` -/
def reDefPy : Re :=
  Re.cat [.bol, strLit "def", sp1, wd1, sp0, one '(', dot0, one ')', one ':']

/-- `/^import\s+\w+/gm` -/
def reImportStmt : Re := Re.cat [.bol, strLit "import", sp1, wd1]

/-- `/^from\s+\w+\s+import/gm` -/
def reFromImport : Re := Re.cat [.bol, strLit "from", sp1, wd1, sp1, strLit "import"]

/-- `/^class\s+\w+/gm` -/
def reClassDecl : Re := Re.cat [.bol, strLit "class", sp1, wd1]

/-- `/^if\s+.*:/gm` -/
def reIfStmt : Re := Re.cat [.bol, strLit "if", sp1, dot0, one ':']

/-- `/^for\s+.*:/gm` -/
def reForStmt : Re := Re.cat [.bol, strLit "for", sp1, dot0, one ':']

/-- `/^while\s+.*:/gm` -/
def reWhileStmt : Re := Re.cat [.bol, strLit "while", sp1, dot0, one ':']

/-- `/^return\s+.*/gm` -/
def reReturnStmt : Re := Re.cat [.bol, strLit "return", sp1, dot0]

/-- `/^\s*[a-zA-Z_][a-zA-Z0-9_]*\s*=\s*.*/gm` -/
def reAssign : Re := Re.cat [.bol, sp0, ident1, sp0, one '=', sp0, dot0]

/-- `/^function\s+\w+\s*\(.*\)/gm` -/
def reFunctionDecl : Re :=
  Re.cat [.bol, strLit "function", sp1, wd1, sp0, one '(', dot0, one ')']

/-- `/^const\s+.*=\s*function/gm` (and the `let`/`var` variants) -/
def reFnExpr (kw : String) : Re :=
  Re.cat [.bol, strLit kw, sp1, dot0, one '=', sp0, strLit "function"]

/-- `/^const\s+.*=\s*\(.*\)\s*=>/gm` (and the `let`/`var` variants) -/
def reArrowFn (kw : String) : Re :=
  Re.cat [.bol, strLit kw, sp1, dot0, one '=', sp0, one '(', dot0, one ')', sp0, strLit "=>"]

/-- `/^public\s+.*\(/gm` (and `private`/`protected`/`static`) -/
def reJavaMethod (kw : String) : Re := Re.cat [.bol, strLit kw, sp1, dot0, one '(']

/-- `/^void\s+\w+\s*\(/gm` (and `int`/`char`/`float`/`double`/`bool`) -/
def reCFn (kw : String) : Re := Re.cat [.bol, strLit kw, sp1, wd1, sp0, one '(']

/-- `/^#include/gm` -/
def reInclude : Re := Re.cat [.bol, strLit "#include"]

/-- `/^using\s+namespace/gm` -/
def reUsingNs : Re := Re.cat [.bol, strLit "using", sp1, strLit "namespace"]

/-- `/^namespace\s+\w+/gm` -/
def reNsDecl : Re := Re.cat [.bol, strLit "namespace", sp1, wd1]

/-- `/^template\s*</gm` -/
def reTemplateDecl : Re := Re.cat [.bol, strLit "template", sp0, one '<']

/-- `/^printf\s*\(/gm` -/
def rePrintf : Re := Re.cat [.bol, strLit "printf", sp0, one '(']

/-- `/^cout\s*<</gm` -/
def reCout : Re := Re.cat [.bol, strLit "cout", sp0, strLit "<<"]

/-- `/^cin\s*>>/gm` -/
def reCin : Re := Re.cat [.bol, strLit "cin", sp0, strLit ">>"]

/-- `/^System\.out\.println/gm` -/
def reSysPrintln : Re := Re.cat [.bol, strLit "System.out.println"]

/-- `/^System\.out\.print/gm` -/
def reSysPrint : Re := Re.cat [.bol, strLit "System.out.print"]

/-- `/^console\.log/gm` -/
def reConsoleLog : Re := Re.cat [.bol, strLit "console.log"]

/-- `/^print\s*\(/gm` -/
def rePrintPy : Re := Re.cat [.bol, strLit "print", sp0, one '(']

/-- `/^[a-zA-Z_][a-zA-Z0-9_]*\.[a-zA-Z_][a-zA-Z0-9_]*\(/gm` (method calls) -/
def reMethodCall : Re := Re.cat [.bol, ident1, one '.', ident1, one '(']

/-- `/^[a-zA-Z_][a-zA-Z0-9_]*\(/gm` (function calls) -/
def reFnCall : Re := Re.cat [.bol, ident1, one '(']

/-- `/\[\s*\d+\s*:\s*\d+\s*\]/g` (array slicing) -/
def reSlice : Re := Re.cat [one '[', sp0, dig1, sp0, one ':', sp0, dig1, sp0, one ']']

/-- `/\(\s*\d+\s*,\s*\d+\s*\)/g` (coordinate pairs) -/
def reCoordPair : Re := Re.cat [one '(', sp0, dig1, sp0, one ',', sp0, dig1, sp0, one ')']

/-- `/\x7b\s*\w+\s*:\s*\w+\s*\x7d/g` (simple object literals) -/
def reObjLit : Re :=
  Re.cat [one '\x7b', sp0, wd1, sp0, one ':', sp0, wd1, sp0, one '\x7d']

/-- `/^[a-zA-Z_][a-zA-Z0-9_]*$/gm` (lines that are a bare identifier) -/
def reBareIdent : Re := Re.cat [.bol, ident1, .eol]

/-- `/\n\s*\n\s*\n/g` (runs of blank lines, replaced by `"\n\n"`) -/
def reTripleBlank : Re := Re.cat [one '\n', sp0, one '\n', sp0, one '\n']

/-- `/^def\s+\w+\s*$$.*$$:/gm`, exactly as written in
`problem-assistance-server.js` (the `\(`/`\)` were corrupted to `$$`, two
end-of-line anchors each, so the pattern can never match a `':'`). -/
def reDefPyBroken : Re :=
  Re.cat [.bol, strLit "def", sp1, wd1, sp0, .eol, .eol, dot0, .eol, .eol, one ':']

/-- The `codePatterns` array of `problem-assistance-server-fixed.js`, in
source order. -/
def codePatternsF : List Re :=
  [reIndentSym, reTabSym, reDefPy, reImportStmt, reFromImport, reClassDecl,
   reIfStmt, reForStmt, reWhileStmt, reReturnStmt, reAssign, reFunctionDecl,
   reFnExpr "const", reFnExpr "let", reFnExpr "var",
   reArrowFn "const", reArrowFn "let", reArrowFn "var",
   reJavaMethod "public", reJavaMethod "private", reJavaMethod "protected",
   reJavaMethod "static",
   reCFn "void", reCFn "int", reCFn "char", reCFn "float", reCFn "double",
   reCFn "bool",
   reInclude, reUsingNs, reNsDecl, reTemplateDecl, rePrintf, reCout, reCin,
   reSysPrintln, reSysPrint, reConsoleLog, rePrintPy, reMethodCall, reFnCall]

/-- The `codePatterns` array of `problem-assistance-server.js`, in source
order. -/
def codePatternsL : List Re :=
  [reIndentSym, reTabSym, reDefPyBroken, reImportStmt, reFromImport,
   reClassDecl, reIfStmt, reForStmt, reWhileStmt, reReturnStmt, reAssign]

/-- `cleanResponseText` of `problem-assistance-server-fixed.js`. -/
def cleanTextF (s : List Char) : List Char :=
  let a := stripInline (stripFences s)
  let b := codePatternsF.foldl (fun acc r => jsReplace r [] acc) a
  let c := jsReplace reSlice [] b
  let d := jsReplace reCoordPair [] c
  let e := jsReplace reObjLit [] d
  let g := jsReplace reBareIdent [] e
  jsReplace reTripleBlank ['\n', '\n'] g

/-- `cleanResponseText` of `problem-assistance-server.js`. -/
def cleanTextL (s : List Char) : List Char :=
  let a := stripInline (stripFences s)
  codePatternsL.foldl (fun acc r => jsReplace r [] acc) a

/-- String-level `cleanResponseText` (fixed variant). -/
def cleanResponseTextF (s : String) : String := ⟨cleanTextF s.data⟩

/-- String-level `cleanResponseText` (lenient variant). -/
def cleanResponseTextL (s : String) : String := ⟨cleanTextL s.data⟩

theorem cleanResponseTextF_data (s : String) :
    (cleanResponseTextF s).data = cleanTextF s.data := by
  rw [cleanResponseTextF]

theorem cleanResponseTextL_data (s : String) :
    (cleanResponseTextL s).data = cleanTextL s.data := by
  rw [cleanResponseTextL]

/-! ## Backtick counting

The inline pass leaves at most one backtick in the whole text, and none of
the later passes can create one; this is what makes the output free of
triple-backtick spans (claim C4) and makes the two backtick passes
idempotent (the provable core of claim C9). -/

theorem mall_suffix (f : Nat) (r : Re) (b : Bool) (s : List Char) :
    ∀ p ∈ mall f r b s, p.2.2 <:+ s := by
  induction f generalizing r b s with
  | zero => intro p hp; simp [mall] at hp
  | succ f ih =>
    intro p hp
    cases r with
    | eps => simp [mall] at hp; simp [hp]
    | chr pr =>
      rcases s with _ | ⟨c, cs⟩
      · simp [mall] at hp
      · simp only [mall] at hp
        by_cases hc : pr c
        · rw [if_pos hc] at hp
          simp at hp
          simp [hp]
        · rw [if_neg hc] at hp
          simp at hp
    | lit l =>
      simp only [mall] at hp
      by_cases hpre : l.isPrefixOf s
      · rw [if_pos hpre] at hp
        simp at hp
        simp [hp, List.drop_suffix]
      · rw [if_neg hpre] at hp
        simp at hp
    | seq r₁ r₂ =>
      simp only [mall, List.mem_flatMap, List.mem_map] at hp
      rcases hp with ⟨q, hq, x, hx, hxp⟩
      have h2 : x.2.2 <:+ q.2.2 := ih r₂ q.1 q.2.2 x hx
      have h1 : q.2.2 <:+ s := ih r₁ b s q hq
      have : p.2.2 = x.2.2 := by rw [← hxp]
      rw [this]
      exact h2.trans h1
    | star r₁ =>
      simp only [mall, List.mem_append, List.mem_flatMap] at hp
      rcases hp with ⟨q, hq, hpq⟩ | hp
      · by_cases hne : q.2.1 ≠ 0
        · rw [if_pos hne] at hpq
          simp only [List.mem_map] at hpq
          rcases hpq with ⟨x, hx, hxp⟩
          have h2 : x.2.2 <:+ q.2.2 := ih (.star r₁) q.1 q.2.2 x hx
          have h1 : q.2.2 <:+ s := ih r₁ b s q hq
          have : p.2.2 = x.2.2 := by rw [← hxp]
          rw [this]
          exact h2.trans h1
        · rw [if_neg hne] at hpq
          simp at hpq
      · simp at hp
        simp [hp]
    | bol =>
      simp only [mall] at hp
      by_cases hb : b
      · rw [if_pos hb] at hp
        simp at hp
        simp [hp]
      · rw [if_neg hb] at hp
        simp at hp
    | eol =>
      rcases s with _ | ⟨c, cs⟩
      · simp [mall] at hp
        simp [hp]
      · simp only [mall] at hp
        by_cases hc : (c == '\n') = true
        · rw [if_pos hc] at hp
          simp at hp
          simp [hp]
        · rw [if_neg hc] at hp
          simp at hp

theorem firstMatch_suffix {r : Re} {b : Bool} {s : List Char} {mf : Nat}
    {p : Bool × List Char} (h : firstMatch r b s mf = some p) :
    p.2 <:+ s := by
  rcases hh : (mall mf r b s).head? with _ | q
  · rw [firstMatch, hh] at h
    exact absurd h (by simp)
  · have h' : (if q.2.1 ≠ 0 then some (q.1, q.2.2) else none) = some p := by
      rw [firstMatch, hh] at h
      exact h
    by_cases hne : q.2.1 ≠ 0
    · rw [if_pos hne] at h'
      injection h' with h'
      subst h'
      exact mall_suffix _ _ _ _ q (List.mem_of_mem_head? hh)
    · rw [if_neg hne] at h'
      exact absurd h' (by simp)

theorem count_le_of_suffix {t s : List Char} (h : t <:+ s) (c : Char) :
    t.count c ≤ s.count c :=
  h.sublist.count_le c

theorem scanRep_count {r : Re} {repl : List Char} {mf : Nat}
    (hr : repl.count '`' = 0) :
    ∀ (f : Nat) (b : Bool) (s : List Char),
      (scanRep r repl mf f b s).count '`' ≤ s.count '`' := by
  intro f
  induction f with
  | zero => intro b s; simp [scanRep]
  | succ f ih =>
    intro b s
    rcases s with _ | ⟨c, cs⟩
    · simp [scanRep]
    · rw [scanRep]
      rcases hm : firstMatch r b (c :: cs) mf with _ | p
      · simp only [List.count_cons]
        have := ih (c == '\n') cs
        split <;> omega
      · simp only [List.count_append, hr, Nat.zero_add]
        exact (ih p.1 p.2).trans (count_le_of_suffix (firstMatch_suffix hm) '`')

theorem jsReplace_count {r : Re} {repl : List Char} (hr : repl.count '`' = 0)
    (s : List Char) : (jsReplace r repl s).count '`' ≤ s.count '`' := by
  rw [jsReplace_eq_scanRep]
  exact scanRep_count hr _ _ _

theorem head_dropWhile_false {p : Char → Bool} {l : List Char} {c : Char}
    {t : List Char} (h : List.dropWhile p l = c :: t) : p c = false := by
  induction l with
  | nil => simp at h
  | cons a as ih =>
    rw [List.dropWhile_cons] at h
    by_cases hp : p a
    · rw [if_pos hp] at h
      exact ih h
    · rw [if_neg hp] at h
      injection h with h1 h2
      subst h1
      simpa using hp

/-- If a text has no backtick, its first backtick cannot be found. -/
theorem dropThroughTick_eq_none {l : List Char} :
    dropThroughTick l = none ↔ l.count '`' = 0 := by
  unfold dropThroughTick
  rcases h : l.dropWhile (· != '`') with _ | ⟨c, t⟩
  · simp only [true_iff]
    have : ∀ x ∈ l, (x != '`') = true := List.dropWhile_eq_nil_iff.mp h
    rw [List.count_eq_zero]
    intro hc
    exact absurd (this '`' hc) (by simp)
  · refine iff_of_false (by simp) ?_
    intro h0
    have hc : c = '`' := by simpa using head_dropWhile_false h
    have hmem : c ∈ l := (List.dropWhile_suffix (· != '`')).subset (by rw [h]; simp)
    rw [List.count_eq_zero] at h0
    exact h0 (hc ▸ hmem)

theorem stripInlineGo_count {f : Nat} {s : List Char} (hf : s.length ≤ f) :
    (stripInlineGo f s).count '`' ≤ 1 := by
  induction f generalizing s with
  | zero =>
    have : s = [] := List.length_eq_zero.mp (by omega)
    subst this
    simp [stripInlineGo]
  | succ f ih =>
    rcases s with _ | ⟨c, cs⟩
    · simp [stripInlineGo]
    · rw [stripInlineGo]
      by_cases hc : c == '`'
      · rw [if_pos hc]
        rcases ht : dropThroughTick cs with _ | t
        · have hcs : cs.count '`' = 0 := dropThroughTick_eq_none.mp ht
          have hc' : c = '`' := by simpa using hc
          simp [List.count_cons, hcs, hc']
        · have hlen : t.length < cs.length + 1 := dropThroughTick_length ht
          simp at hf
          exact ih (by omega)
      · rw [if_neg hc]
        have hne : ¬(c = '`') := by simpa using hc
        simp only [List.count_cons]
        have := ih (s := cs) (by simp at hf; omega)
        simp [hne]
        omega

/-- After the inline pass, at most one backtick remains in the whole text. -/
theorem stripInline_count (l : List Char) : (stripInline l).count '`' ≤ 1 :=
  stripInlineGo_count (by omega)

theorem foldl_jsReplace_count (ps : List Re) (a : List Char) :
    (ps.foldl (fun acc r => jsReplace r [] acc) a).count '`' ≤ a.count '`' := by
  induction ps generalizing a with
  | nil => simp
  | cons p ps ih =>
    exact (ih (jsReplace p [] a)).trans (jsReplace_count (by simp) a)

/-- The sanitizer of the fixed variant leaves at most one backtick. -/
theorem cleanTextF_count (s : List Char) : (cleanTextF s).count '`' ≤ 1 := by
  unfold cleanTextF
  refine (jsReplace_count (by simp) _).trans ?_
  refine (jsReplace_count (by simp) _).trans ?_
  refine (jsReplace_count (by simp) _).trans ?_
  refine (jsReplace_count (by simp) _).trans ?_
  refine (jsReplace_count (by simp) _).trans ?_
  exact (foldl_jsReplace_count _ _).trans (stripInline_count _)

/-- The sanitizer of the lenient variant leaves at most one backtick. -/
theorem cleanTextL_count (s : List Char) : (cleanTextL s).count '`' ≤ 1 := by
  unfold cleanTextL
  exact (foldl_jsReplace_count _ _).trans (stripInline_count _)

/-! ## Idempotence of the backtick passes -/

/-- A text with fewer than three backticks has no fence to strip. -/
theorem stripFencesGo_of_count_lt {f : Nat} {s : List Char}
    (hf : s.length ≤ f) (h : s.count '`' < 3) : stripFencesGo f s = s := by
  induction f generalizing s with
  | zero =>
    rw [stripFencesGo]
  | succ f ih =>
    rcases s with _ | ⟨c₀, s₁⟩
    · rw [stripFencesGo]
    rcases s₁ with _ | ⟨c₁, s₂⟩
    · rw [stripFencesGo]
    rcases s₂ with _ | ⟨c₂, rest⟩
    · rw [stripFencesGo]
    rw [stripFencesGo]
    have hticks : ¬((c₀ == '`' && c₁ == '`' && c₂ == '`') = true) := by
      intro hx
      rcases Bool.and_eq_true_iff.mp hx with ⟨h01, h2⟩
      rcases Bool.and_eq_true_iff.mp h01 with ⟨h0, h1⟩
      have e0 : c₀ = '`' := by simpa using h0
      have e1 : c₁ = '`' := by simpa using h1
      have e2 : c₂ = '`' := by simpa using h2
      subst e0 e1 e2
      simp [List.count_cons] at h
      omega
    rw [if_neg hticks]
    have hmono : (c₁ :: c₂ :: rest).count '`' ≤ (c₀ :: c₁ :: c₂ :: rest).count '`' :=
      (List.sublist_cons_self c₀ _).count_le '`'
    rw [ih (by simp at hf ⊢; omega) (by omega)]

theorem stripFences_of_count_lt {l : List Char} (h : l.count '`' < 3) :
    stripFences l = l :=
  stripFencesGo_of_count_lt (by omega) h

/-- A text with at most one backtick has no inline span to strip. -/
theorem stripInlineGo_of_count_le {f : Nat} {s : List Char}
    (hf : s.length ≤ f) (h : s.count '`' ≤ 1) : stripInlineGo f s = s := by
  induction f generalizing s with
  | zero => rw [stripInlineGo]
  | succ f ih =>
    rcases s with _ | ⟨c, cs⟩
    · rw [stripInlineGo]
    rw [stripInlineGo]
    by_cases hc : c == '`'
    · rw [if_pos hc]
      have hc' : c = '`' := by simpa using hc
      have hcs : cs.count '`' = 0 := by
        subst hc'
        simp [List.count_cons] at h
        omega
      rw [dropThroughTick_eq_none.mpr hcs]
    · rw [if_neg hc]
      have hne : ¬(c = '`') := by simpa using hc
      rw [ih (by simp at hf; omega) (by simp [List.count_cons, hne] at h ⊢; omega)]

theorem stripInline_of_count_le {l : List Char} (h : l.count '`' ≤ 1) :
    stripInline l = l :=
  stripInlineGo_of_count_le (by omega) h

/-- The composition of the fence pass and the inline pass is idempotent:
after one application at most one backtick remains, so neither pass can
match again. -/
theorem tickPasses_idem (l : List Char) :
    stripInline (stripFences (stripInline (stripFences l)))
      = stripInline (stripFences l) := by
  have h1 : (stripInline (stripFences l)).count '`' ≤ 1 := stripInline_count _
  rw [stripFences_of_count_lt (by omega), stripInline_of_count_le h1]

/-! ## Data model

`Problem` is a record of the problem catalog (`questions.json`).
`StoredResponse` is the single-slot cache record (`PAResponse.json`); the
lenient variant additionally persists `languageDisplay`, modelled as an
optional field.  Request indices are `Int` (the parsed value of
`Number.parseInt(req.query.index)`, `0` when absent); an absent or empty
`language` query parameter is modelled as `""` (both are falsy in JS). -/

structure Problem where
  title : String
  difficulty : String
  question : String
  input_format : String
  output_format : String
  constraints : String
  hint : String
  sample_input : String
  sample_output : String
deriving DecidableEq

structure StoredResponse where
  questionIndex : Int
  title : String
  language : String
  languageDisplay : Option String
  response : String
  timestamp : String
deriving DecidableEq

def SUPPORTED_LANGUAGES : List String := ["python", "javascript", "java", "cpp", "c"]

def DEFAULT_LANGUAGE : String := "python"

/-- JS `String.prototype.toLowerCase`, modelled over ASCII characters (a
structurally recursive equivalent of `String.toLower`, so that the kernel
can evaluate it). -/
def lowerStr (s : String) : String := ⟨s.data.map Char.toLower⟩

/-- `validateLanguage` of the fixed variant: requires a language and rejects
unsupported ones (exceptions are modelled by `Except`). -/
def validateLanguageF (language : String) : Except String String :=
  if language = "" then .error "Language parameter is required"
  else if SUPPORTED_LANGUAGES.contains (lowerStr language) then .ok (lowerStr language)
  else .error ("Unsupported language: " ++ language)

/-- `validateLanguage` of the lenient variant: defaults to python when the
language is absent or unsupported. -/
def validateLanguageL (language : String) : String :=
  if language = "" then DEFAULT_LANGUAGE
  else if SUPPORTED_LANGUAGES.contains (lowerStr language) then lowerStr language
  else DEFAULT_LANGUAGE

/-- `getLanguageDisplayName` of the fixed variant. -/
def getLanguageDisplayNameF (language : String) : String :=
  if language = "python" then "Python"
  else if language = "javascript" then "JavaScript"
  else if language = "java" then "Java"
  else if language = "cpp" then "C++"
  else if language = "c" then "C"
  else "Unknown Language"

/-- `getLanguageDisplayName` of the lenient variant (its default branch
returns `"Python"`). -/
def getLanguageDisplayNameL (language : String) : String :=
  if language = "python" then "Python"
  else if language = "javascript" then "JavaScript"
  else if language = "java" then "Java"
  else if language = "cpp" then "C++"
  else if language = "c" then "C"
  else "Python"

/-- `getLanguageSpecificContext` of the lenient variant, with the JS
`.trim()` already applied to each template literal. -/
def getLanguageSpecificContext (language : String) : String :=
  if language = "python" then
    "- Focus on Python-specific approaches and considerations\n- Consider Python\x27s built-in data structures like lists, dictionaries, sets, and tuples\n- Think about Python\x27s standard library modules that might be helpful\n- Consider Python\x27s strengths in readability and simplicity\n- Remember Python\x27s zero-indexed collections and slicing capabilities"
  else if language = "javascript" then
    "- Focus on JavaScript-specific approaches and considerations\n- Consider JavaScript\x27s array methods and object manipulation techniques\n- Think about JavaScript\x27s functional programming capabilities\n- Consider JavaScript\x27s asynchronous programming model if relevant\n- Remember JavaScript\x27s zero-indexed arrays and object property access"
  else if language = "java" then
    "- Focus on Java-specific approaches and considerations\n- Consider Java\x27s collection framework (ArrayList, HashMap, etc.)\n- Think about Java\x27s object-oriented design principles\n- Consider Java\x27s type system and how it affects the solution\n- Remember Java\x27s zero-indexed arrays and explicit type declarations"
  else if language = "cpp" then
    "- Focus on C++-specific approaches and considerations\n- Consider C++\x27s STL containers and algorithms\n- Think about memory management and efficiency\n- Consider C++\x27s template system for generic programming\n- Remember C++\x27s zero-indexed arrays and pointer arithmetic"
  else if language = "c" then
    "- Focus on C-specific approaches and considerations\n- Consider C\x27s standard library functions\n- Think about manual memory management and efficiency\n- Consider C\x27s procedural programming paradigm\n- Remember C\x27s zero-indexed arrays and pointer arithmetic"
  else ""

/-! ## Prompt builders -/

/-- The template-literal body of `buildPrompt` in the fixed variant, given
the validated language's display name. -/
def promptTextF (q : Problem) (langDisplayName : String) : String :=
  "\nYou are an expert " ++ langDisplayName ++
  " mentor specializing in Data Structures and Algorithms.\nRead the following problem carefully and explain it using EXACTLY the following structure with these EXACT section headings:\n\nSECTION 1: Explaining the Problem\n- Describe the question in simple layman terms without any technical jargon\n- IMPORTANT: Clearly identify and explain the key DSA topics/concepts used in the question (e.g., arrays, linked lists, trees, graphs, sorting, searching, dynamic programming, recursion, etc.)\n- Break down the problem into smaller, more manageable parts\n- Use beginner-friendly language to describe the key task\n\nSECTION 2: Solution Strategy\n- Comprehensively explain the core logic or strategy to solve this problem\n- ABSOLUTELY DO NOT provide any code examples, snippets, or implementation details\n- Focus on explaining the thought process and algorithmic approach\n- Explain WHY this approach works for the problem\n- Emphasize the importance of understanding the problem before attempting to write code\n- Encourage students to break down complex problems into simpler sub-problems\n- Discuss key challenges and how they can be handled in a beginner-friendly way\n\nSECTION 3: Step-by-Step Approach\n- List numbered steps that a student should take to solve the problem\n- Each step should be a conceptual action, not a coding instruction\n- Focus on the algorithm and approach, not the implementation details\n\nCRITICAL INSTRUCTIONS:\n1. DO NOT INCLUDE ANY CODE EXAMPLES OR SNIPPETS in your response\n2. DO NOT use markdown code blocks (backticks) anywhere in your response\n3. DO NOT include variable names, function names, or any syntax specific to " ++
  langDisplayName ++
  "\n4. Strictly adhere to the given format with these EXACT section headings\n5. Only follow the 3 sections above\n6. Describe the solution in words only, without showing implementation\n7. NEVER include any " ++
  langDisplayName ++
  " code, pseudocode, or code-like syntax in your response\n8. If you feel tempted to show code, instead describe the algorithm in plain English\n9. Focus on explaining the DSA concepts and problem-solving approach\n\nProblem Title:\n" ++
  q.title ++ "\nDifficulty:\n" ++ q.difficulty ++ "\nProblem Statement:\n" ++
  q.question ++ "\nInput Format:\n" ++ q.input_format ++ "\nOutput Format:\n" ++
  q.output_format ++ "\nConstraints:\n" ++ q.constraints ++ "\nHint:\n" ++
  q.hint ++ "\nSample Input:\n" ++ q.sample_input ++ "\nSample Output:\n" ++
  q.sample_output ++ "\nSelected Language:\n" ++ langDisplayName ++ "\n"

/-- `buildPrompt` of the fixed variant (it re-validates the language, which
can throw). -/
def buildPromptF (q : Problem) (language : String) : Except String String :=
  (validateLanguageF language).map fun normalizedLang =>
    promptTextF q (getLanguageDisplayNameF normalizedLang)

/-- The template-literal body of `buildPrompt` in the lenient variant. -/
def promptTextL (q : Problem) (langDisplayName languageContext : String) : String :=
  "\nYou are an expert " ++ langDisplayName ++
  " mentor.\nRead the following problem carefully and explain it using EXACTLY the following structure with these EXACT section headings:\n\nSECTION 1: Explaining the Problem\n- Provide a detailed explanation of the problem at a layman level\n- Break down the problem into smaller parts using simple, everyday language\n- Explain what the problem is asking for and what a solution should accomplish\n- Use concrete examples to illustrate the problem, including the provided sample inputs/outputs\n- Make sure a complete beginner can understand what needs to be done\n\nSECTION 2: DSA Topics Involved\n- Identify ALL the key Data Structures and Algorithms (DSA) topics involved in this problem\n- List each DSA topic as a bullet point (e.g., Stack, Queue, Binary Search, Dynamic Programming)\n- For each DSA topic mentioned, provide a simple explanation of what it is and how it works\n- Explain why this DSA topic is relevant to solving this particular problem\n- Use analogies and real-world examples to explain complex DSA concepts\n\nSECTION 3: Solution Strategy\n- Provide a single, clear solution strategy based on " ++
  langDisplayName ++
  "\n- Explain the approach step-by-step in a logical order\n- Focus on the thought process and reasoning behind each step\n- Mention " ++
  langDisplayName ++ "-specific considerations:\n" ++ languageContext ++
  "\n- Number each step clearly (1, 2, 3, etc.)\n- Explain the time and space complexity of the solution in simple terms\n\nCRITICAL INSTRUCTIONS:\n1. DO NOT INCLUDE ANY CODE EXAMPLES OR SNIPPETS in your response\n2. DO NOT use markdown code blocks (backticks) anywhere in your response\n3. Strictly adhere to the given format with these EXACT section headings\n4. Only follow the 3 sections above\n5. Describe the solution in words only, without showing implementation\n6. NEVER include any " ++
  langDisplayName ++
  " code, pseudocode, or code-like syntax in your response\n7. If you feel tempted to show code, instead describe the algorithm in plain English\n8. Make sure your explanations are accessible to beginners with no prior DSA knowledge\nProblem Title:\n" ++
  q.title ++ "\nDifficulty:\n" ++ q.difficulty ++ "\nProblem Statement:\n" ++
  q.question ++ "\nInput Format:\n" ++ q.input_format ++ "\nOutput Format:\n" ++
  q.output_format ++ "\nConstraints:\n" ++ q.constraints ++ "\nHint:\n" ++
  q.hint ++ "\nSample Input:\n" ++ q.sample_input ++ "\nSample Output:\n" ++
  q.sample_output ++ "\nSelected Language:\n" ++ langDisplayName ++ "\n"

/-- `buildPrompt` of the lenient variant (total: its validation defaults). -/
def buildPromptL (q : Problem) (language : String) : String :=
  let normalizedLang := validateLanguageL language
  promptTextL q (getLanguageDisplayNameL normalizedLang)
    (getLanguageSpecificContext normalizedLang)

/-! ## Fallback generators -/

/-- The fallback template of the fixed variant, split at the interpolation
points (`fbF1 ++ title ++ fbF2 ++ difficulty ++ fbF3 ++ disp ++ fbF4 ++ disp
++ fbF5 ++ disp ++ fbF6`); the section headings live inside single literal
chunks. -/
def fbF1 : String := "SECTION 1: Explaining the Problem\n- The AI Mentor is not available right now. Please try again later.\n- This problem is about "

def fbF2 : String := " with a difficulty of "

def fbF3 : String := ".\n- You selected "

def fbF4 : String := " as your programming language.\n\nSECTION 2: Solution Strategy\n- While the AI Mentor is unavailable, you can try to solve this problem on your own.\n- Read the problem statement carefully and think about the key concepts involved.\n- Consider how you would approach this problem using "

def fbF5 : String := ".\n\nSECTION 3: Step-by-Step Approach\n1. Read the problem statement and understand the requirements\n2. Analyze the sample inputs and outputs\n3. Think about potential algorithms or data structures that might help\n4. Try to implement a solution in "

def fbF6 : String := " and test it with the sample cases\n5. If you\x27re stuck, try again later when the AI Mentor is available"

def fallbackTextF (title difficulty disp : String) : String :=
  fbF1 ++ title ++ fbF2 ++ difficulty ++ fbF3 ++ disp ++ fbF4 ++ disp ++
    fbF5 ++ disp ++ fbF6

/-- `generateFallbackResponse` of the fixed variant (it validates the
language, which can throw). -/
def generateFallbackResponseF (question : Problem) (language : String) :
    Except String String :=
  (validateLanguageF language).map fun normalizedLang =>
    fallbackTextF question.title question.difficulty
      (getLanguageDisplayNameF normalizedLang)

/-- The fallback template of the lenient variant, split at the interpolation
points (`fbL1 ++ title ++ fbL2 ++ difficulty ++ fbL3 ++ disp ++ fbL4 ++ disp
++ fbL5 ++ disp ++ fbL6 ++ disp ++ fbL7 ++ disp ++ fbL8 ++ languageContext`). -/
def fbL1 : String := "SECTION 1: Explaining the Problem\n- The AI Mentor is not available right now. Please try again later.\n- This problem is about "

def fbL2 : String := " with a difficulty of "

def fbL3 : String := ".\n- You selected "

def fbL4 : String := " as your programming language.\n- When the AI Mentor is available, it will provide a detailed explanation of this problem at a layman level.\n\nSECTION 2: DSA Topics Involved\n- When the AI Mentor is available, it will identify the key Data Structures and Algorithms (DSA) topics involved in this problem.\n- It will explain each DSA topic in simple terms with examples.\n- Common DSA topics include arrays, linked lists, stacks, queues, trees, graphs, sorting algorithms, searching algorithms, and dynamic programming.\n- Understanding the relevant DSA topics is crucial for developing an effective solution strategy.\n\nSECTION 3: Solution Strategy\n1. Read the problem statement and understand the requirements\n2. Analyze the sample inputs and outputs\n3. Think about potential algorithms or data structures that might help\n4. Consider "

def fbL5 : String := "-specific libraries or features that could be useful\n5. Plan your solution with "

def fbL6 : String := " in mind\n6. Try to implement a solution in "

def fbL7 : String := " and test it with the sample cases\n7. If you\x27re stuck, try again later when the AI Mentor is available\n\nWhen the AI Mentor is available, it will provide "

def fbL8 : String := "-specific guidance for this problem, including:\n"

def fallbackTextL (title difficulty disp languageContext : String) : String :=
  fbL1 ++ title ++ fbL2 ++ difficulty ++ fbL3 ++ disp ++ fbL4 ++ disp ++
    fbL5 ++ disp ++ fbL6 ++ disp ++ fbL7 ++ disp ++ fbL8 ++ languageContext

/-- `generateFallbackResponse` of the lenient variant (total). -/
def generateFallbackResponseL (question : Problem) (language : String) : String :=
  let normalizedLang := validateLanguageL language
  fallbackTextL question.title question.difficulty
    (getLanguageDisplayNameL normalizedLang)
    (getLanguageSpecificContext normalizedLang)

/-! ## Response store

The store is the contents of the single JSON file `PAResponse.json`,
modelled as `Option StoredResponse` (`none`: file absent or unreadable).
File I/O faults are out of scope: writes succeed.  `now` stands for
`new Date().toISOString()`. -/

/-- `loadStoredResponse` (identical in both variants): return the record in
the store, or `none`. -/
def loadStoredResponse (store : Option StoredResponse) : Option StoredResponse :=
  store

/-- `saveResponse` of the fixed variant.  It sanitizes the text and
re-validates the language before persisting; a validation throw is caught
(`return false`) and nothing is written. -/
def saveResponseF (questionIndex : Int) (title responseText language now : String) :
    Option StoredResponse :=
  match validateLanguageF language with
  | .error _ => none
  | .ok normalizedLang =>
    some { questionIndex := questionIndex, title := title,
           language := normalizedLang, languageDisplay := none,
           response := cleanResponseTextF responseText, timestamp := now }

/-- `saveResponse` of the lenient variant (total; also persists
`languageDisplay`). -/
def saveResponseL (questionIndex : Int) (title responseText language now : String) :
    StoredResponse :=
  let normalizedLang := validateLanguageL language
  { questionIndex := questionIndex, title := title,
    language := normalizedLang,
    languageDisplay := some (getLanguageDisplayNameL normalizedLang),
    response := cleanResponseTextL responseText, timestamp := now }

/-! ## Streaming events and the inference endpoint

`SEvent` is one SSE frame as written by `res.write`.  The inference
endpoint (the Ollama HTTP call) is abstracted as a function of the prompt:
either the request itself fails (`unavailable`: connection refused,
timeout, non-success status, i.e. the `await axios.post` throws), or a
stream of raw body chunks is delivered, ending either normally (`end`
event) or with a transport error (`error` event, carrying the error
message).  `parse` abstracts `JSON.parse(line).response`: `.error ()` when
`JSON.parse` throws, otherwise `.ok` with the value of the `response`
field coerced to a string (`""` when the field is absent or empty — both
are falsy in JS). -/

inductive SEvent : Type
  | metadata (title language languageDisplay : String) (fromCache : Bool)
  | dataEv (text : String) (fallback : Bool)
  | complete
  | errorEv (msg : String)
deriving DecidableEq

inductive StreamEnd : Type
  | normal
  | errored (msg : String)
deriving DecidableEq

inductive InfBehavior : Type
  | unavailable (msg : String)
  | streamed (chunks : List String) (ending : StreamEnd)

def ParseFn : Type := String → Except Unit String

/-- JS `String.prototype.split("\n")` (structurally recursive, so the
kernel can evaluate it): split at every newline, keeping empty pieces. -/
def splitNlGo (acc : List Char) : List Char → List (List Char)
  | [] => [acc.reverse]
  | c :: cs =>
    if c == '\n' then acc.reverse :: splitNlGo [] cs
    else splitNlGo (c :: acc) cs

def splitNl (s : String) : List String :=
  (splitNlGo [] s.data).map fun l => ⟨l⟩

/-- JS `String.prototype.trim` over the ASCII whitespace set. -/
def jsTrim (s : String) : String :=
  ⟨((s.data.dropWhile isSpaceChar).reverse.dropWhile isSpaceChar).reverse⟩

/-- The body of the per-`data`-chunk line loop: process all complete lines
(every line except the last), collecting the `response` fragments of lines
that parse; a `JSON.parse` throw aborts the loop (`true` in the result),
in which case the buffer-trimming assignment is skipped. -/
def procLines (parse : ParseFn) : List String → List String × Bool
  | [] => ([], false)
  | l :: ls =>
    if jsTrim l ≠ "" then
      match parse l with
      | .error _ => ([], true)
      | .ok r =>
        let rest := procLines parse ls
        (if r ≠ "" then r :: rest.1 else rest.1, rest.2)
    else procLines parse ls

/-- One `data` listener invocation: append the chunk to `jsonBuffer`, split
on newlines, process the complete lines, and (unless the loop threw) keep
only the last line in the buffer. -/
def chunkStep (parse : ParseFn) (st : List String × String) (chunk : String) :
    List String × String :=
  let buf := st.2 ++ chunk
  let lines := splitNl buf
  let (frags, aborted) := procLines parse lines.dropLast
  if aborted then (st.1 ++ frags, buf)
  else (st.1 ++ frags, lines.getLastD "")

/-- The `end` listener's handling of the remaining buffer: one more parse,
whose fragment is appended when it parses and is truthy. -/
def endStep (parse : ParseFn) (buf : String) : Option String :=
  if jsTrim buf ≠ "" then
    match parse buf with
    | .error _ => none
    | .ok r => if r ≠ "" then some r else none
  else none

/-- Fragments forwarded while the chunks arrive (also the `fullResponse`
increments), before the terminal event. -/
def streamFrags (parse : ParseFn) (chunks : List String) : List String × String :=
  chunks.foldl (chunkStep parse) ([], "")

/-- All fragments of a normally ended stream (`fullResponse` is their
concatenation). -/
def genFragments (parse : ParseFn) (chunks : List String) : List String :=
  let r := streamFrags parse chunks
  r.1 ++ (endStep parse r.2).toList

/-! ## The streaming endpoint `/explain-stream` -/

/-- `questions[index]`: `undefined` (`none`) unless `0 ≤ index < length`. -/
def getQuestion (questions : List Problem) (index : Int) : Option Problem :=
  if index < 0 then none else questions.get? index.toNat

/-- The cache check shared by all four handlers: the stored record is used
when force-refresh is off and its question index and language both equal
the request's. -/
def cacheHitSt (store : Option StoredResponse) (index : Int)
    (normalizedLang : String) (forceRefresh : Bool) : Option StoredResponse :=
  match store with
  | some st =>
    if !forceRefresh && st.questionIndex == index && st.language == normalizedLang
    then some st else none
  | none => none

/-- `app.get("/explain-stream")` of the fixed variant: the SSE frames
written, in order, and the store state afterwards. -/
def explainStreamF (questions : List Problem) (store : Option StoredResponse)
    (now : String) (parse : ParseFn) (inf : String → InfBehavior)
    (index : Int) (language : String) (forceRefresh : Bool) :
    List SEvent × Option StoredResponse :=
  if questions.length = 0 then
    ([.errorEv "Failed to load questions data"], store)
  else if language = "" then
    ([.errorEv "Language parameter is required"], store)
  else
    match validateLanguageF language with
    | .error e => ([.errorEv e], store)
    | .ok normalizedLang =>
      let langDisplayName := getLanguageDisplayNameF normalizedLang
      match getQuestion questions index with
      | none =>
        ([.errorEv ("Question not found at index " ++ toString index)], store)
      | some question =>
        match cacheHitSt (loadStoredResponse store) index normalizedLang forceRefresh with
        | some storedResponse =>
          ([.metadata question.title normalizedLang langDisplayName true,
            .dataEv storedResponse.response false, .complete], store)
        | none =>
          match buildPromptF question normalizedLang with
          | .error e => ([.errorEv e], store)
          | .ok prompt =>
            let meta := SEvent.metadata question.title normalizedLang langDisplayName false
            match inf prompt with
            | .unavailable _ =>
              match generateFallbackResponseF question normalizedLang with
              | .error e => ([meta, .errorEv e], store)
              | .ok fallbackResponse =>
                let store' :=
                  match saveResponseF index question.title fallbackResponse normalizedLang now with
                  | some r => some r
                  | none => store
                ([meta, .dataEv fallbackResponse true, .complete], store')
            | .streamed chunks .normal =>
              let frags := genFragments parse chunks
              let fullResponse := String.join frags
              let store' :=
                match saveResponseF index question.title fullResponse normalizedLang now with
                | some r => some r
                | none => store
              (meta :: frags.map (fun t => SEvent.dataEv t false) ++ [.complete], store')
            | .streamed chunks (.errored msg) =>
              let frags := (streamFrags parse chunks).1
              (meta :: frags.map (fun t => SEvent.dataEv t false) ++ [.errorEv msg], store)

/-- `app.get("/explain-stream")` of the lenient variant (no
language-required check, lenient validation, otherwise identical). -/
def explainStreamL (questions : List Problem) (store : Option StoredResponse)
    (now : String) (parse : ParseFn) (inf : String → InfBehavior)
    (index : Int) (language : String) (forceRefresh : Bool) :
    List SEvent × Option StoredResponse :=
  if questions.length = 0 then
    ([.errorEv "Failed to load questions data"], store)
  else
    let normalizedLang := validateLanguageL language
    let langDisplayName := getLanguageDisplayNameL normalizedLang
    match getQuestion questions index with
    | none =>
      ([.errorEv ("Question not found at index " ++ toString index)], store)
    | some question =>
      match cacheHitSt (loadStoredResponse store) index normalizedLang forceRefresh with
      | some storedResponse =>
        ([.metadata question.title normalizedLang langDisplayName true,
          .dataEv storedResponse.response false, .complete], store)
      | none =>
        let prompt := buildPromptL question normalizedLang
        let meta := SEvent.metadata question.title normalizedLang langDisplayName false
        match inf prompt with
        | .unavailable _ =>
          let fallbackResponse := generateFallbackResponseL question normalizedLang
          let store' := some (saveResponseL index question.title fallbackResponse normalizedLang now)
          ([meta, .dataEv fallbackResponse true, .complete], store')
        | .streamed chunks .normal =>
          let frags := genFragments parse chunks
          let fullResponse := String.join frags
          let store' := some (saveResponseL index question.title fullResponse normalizedLang now)
          (meta :: frags.map (fun t => SEvent.dataEv t false) ++ [.complete], store')
        | .streamed chunks (.errored msg) =>
          let frags := (streamFrags parse chunks).1
          (meta :: frags.map (fun t => SEvent.dataEv t false) ++ [.errorEv msg], store)

/-! ## The non-streaming endpoint `/explain` -/

/-- The JSON body sent by `/explain` on success; `none` fields are omitted
from the object. -/
structure ExplainBody where
  title : String
  language : Option String
  languageDisplay : Option String
  response : String
  fromCache : Option Bool
  fallback : Option Bool
deriving DecidableEq

inductive ExplainResult : Type
  | plain (status : Nat) (body : String)
  | json (body : ExplainBody)
deriving DecidableEq

/-- `app.get("/explain")` of the fixed variant.  A mid-stream transport
error rejects `responsePromise`, which `await` rethrows inside the
`apiError` catch, so it takes the fallback path like a connection failure. -/
def explainF (questions : List Problem) (store : Option StoredResponse)
    (now : String) (parse : ParseFn) (inf : String → InfBehavior)
    (index : Int) (language : String) (forceRefresh : Bool) :
    Option ExplainResult × Option StoredResponse :=
  if questions.length = 0 then
    (some (.plain 500 "Failed to load questions data"), store)
  else if language = "" then
    (some (.plain 400 "Language parameter is required"), store)
  else
    match validateLanguageF language with
    | .error e => (some (.plain 400 e), store)
    | .ok normalizedLang =>
      let langDisplayName := getLanguageDisplayNameF normalizedLang
      match getQuestion questions index with
      | none =>
        (some (.plain 404 ("Question not found at index " ++ toString index ++
          ". Total questions: " ++ toString questions.length)), store)
      | some question =>
        match cacheHitSt (loadStoredResponse store) index normalizedLang forceRefresh with
        | some storedResponse =>
          (some (.json { title := question.title, language := some normalizedLang,
                         languageDisplay := some langDisplayName,
                         response := storedResponse.response,
                         fromCache := some true, fallback := none }), store)
        | none =>
          match buildPromptF question normalizedLang with
          | .error e => (some (.plain 400 e), store)
          | .ok prompt =>
            let fallbackPath : Option ExplainResult × Option StoredResponse :=
              match generateFallbackResponseF question normalizedLang with
              | .error e => (some (.plain 500 ("Server error: " ++ e)), store)
              | .ok fallbackResponse =>
                let store' :=
                  match saveResponseF index question.title fallbackResponse normalizedLang now with
                  | some r => some r
                  | none => store
                (some (.json { title := question.title, language := some normalizedLang,
                               languageDisplay := some langDisplayName,
                               response := fallbackResponse,
                               fromCache := none, fallback := some true }), store')
            match inf prompt with
            | .unavailable _ => fallbackPath
            | .streamed chunks .normal =>
              let fullResponse := String.join (genFragments parse chunks)
              let store' :=
                match saveResponseF index question.title fullResponse normalizedLang now with
                | some r => some r
                | none => store
              (some (.json { title := question.title, language := some normalizedLang,
                             languageDisplay := some langDisplayName,
                             response := fullResponse,
                             fromCache := none, fallback := none }), store')
            | .streamed _ (.errored _) => fallbackPath

/-- `app.get("/explain")` of the lenient variant.  On success it calls
`saveResponse(index, question.title, fullResponse)` with the language
argument omitted (the JS default parameter supplies `DEFAULT_LANGUAGE`),
and replies with only `title` and `response`.  A mid-stream transport error
rejects the `return`ed promise, which nothing awaits inside the `try`
blocks, so no response is sent and nothing is saved. -/
def explainL (questions : List Problem) (store : Option StoredResponse)
    (now : String) (parse : ParseFn) (inf : String → InfBehavior)
    (index : Int) (language : String) (forceRefresh : Bool) :
    Option ExplainResult × Option StoredResponse :=
  if questions.length = 0 then
    (some (.plain 500 "Failed to load questions data"), store)
  else
    let normalizedLang := validateLanguageL language
    let langDisplayName := getLanguageDisplayNameL normalizedLang
    match getQuestion questions index with
    | none =>
      (some (.plain 404 ("Question not found at index " ++ toString index ++
        ". Total questions: " ++ toString questions.length)), store)
    | some question =>
      match cacheHitSt (loadStoredResponse store) index normalizedLang forceRefresh with
      | some storedResponse =>
        (some (.json { title := question.title, language := some normalizedLang,
                       languageDisplay := some langDisplayName,
                       response := storedResponse.response,
                       fromCache := some true, fallback := none }), store)
      | none =>
        let prompt := buildPromptL question normalizedLang
        match inf prompt with
        | .unavailable _ =>
          let fallbackResponse := generateFallbackResponseL question normalizedLang
          let store' := some (saveResponseL index question.title fallbackResponse normalizedLang now)
          (some (.json { title := question.title, language := some normalizedLang,
                         languageDisplay := some langDisplayName,
                         response := fallbackResponse,
                         fromCache := none, fallback := some true }), store')
        | .streamed chunks .normal =>
          let fullResponse := String.join (genFragments parse chunks)
          let store' := some (saveResponseL index question.title fullResponse DEFAULT_LANGUAGE now)
          (some (.json { title := question.title, language := none,
                         languageDisplay := none,
                         response := fullResponse,
                         fromCache := none, fallback := none }), store')
        | .streamed _ (.errored _) => (none, store)

deriving instance DecidableEq for Except

/-! ## Shared helper lemmas about validation -/

/-- A canonical supported language validates to itself (fixed variant). -/
theorem validateF_of_mem {L : String} (h : L ∈ SUPPORTED_LANGUAGES) :
    validateLanguageF L = .ok L := by
  fin_cases h <;> decide

/-- A canonical supported language validates to itself (lenient variant). -/
theorem validateL_of_mem {L : String} (h : L ∈ SUPPORTED_LANGUAGES) :
    validateLanguageL L = L := by
  fin_cases h <;> decide

/-- Whatever the fixed validator accepts is a canonical supported language. -/
theorem validateF_ok_mem {language L : String}
    (h : validateLanguageF language = .ok L) : L ∈ SUPPORTED_LANGUAGES := by
  unfold validateLanguageF at h
  split at h
  · exact absurd h (by simp)
  · split at h
    · next hc =>
      injection h with h
      subst h
      simpa using hc
    · exact absurd h (by simp)

/-- Whatever the lenient validator returns is a canonical supported
language. -/
theorem validateL_mem (language : String) :
    validateLanguageL language ∈ SUPPORTED_LANGUAGES := by
  unfold validateLanguageL
  split
  · decide
  · split
    · next hc => simpa using hc
    · decide

/-! ## Claim C4 -/

/-- **C4.**  For every input text, the output of the Response Sanitizer
(`cleanResponseText`, in either server variant) contains no
triple-backtick-fenced span: after the inline pass at most one backtick
survives anywhere in the text, and no later pass introduces one. -/
theorem no_triple_of_count_le {u : List Char} (hu : u.count '`' ≤ 1) :
    ¬ (['`', '`', '`'] <:+: u) := by
  intro hinf
  have h3 : (['`', '`', '`'] : List Char).count '`' ≤ u.count '`' :=
    hinf.sublist.count_le '`'
  have hc : (['`', '`', '`'] : List Char).count '`' = 3 := by decide
  omega

/-- **C4.**  For every input text, the output of the Response Sanitizer
(`cleanResponseText`, in either server variant) contains no
triple-backtick-fenced span: after the inline pass at most one backtick
survives anywhere in the text, and no later pass introduces one. -/
theorem c4_sanitizer_no_fenced_spans (t : String) :
    ¬ (['`', '`', '`'] <:+: (cleanResponseTextF t).data) ∧
    ¬ (['`', '`', '`'] <:+: (cleanResponseTextL t).data) := by
  rw [cleanResponseTextF_data, cleanResponseTextL_data]
  exact ⟨no_triple_of_count_le (cleanTextF_count t.data),
         no_triple_of_count_le (cleanTextL_count t.data)⟩

/-! ## Claim C9 -/

set_option maxRecDepth 8000 in
/-- **C9, counterexample.**  The sanitizer of the fixed variant is not
idempotent: the method-call pattern `/^\w+\.\w+\(/` consumes only the
matched prefix, so on `"a.b(c.d(x))"` one application leaves `"c.d(x))"`
and a second application strips again to `"x))"`. -/
theorem c9_counterexample :
    cleanResponseTextF (cleanResponseTextF "a.b(c.d(x))")
      ≠ cleanResponseTextF "a.b(c.d(x))" := by decide

/-- **C9, amended.**  Reapplying the backtick passes (fenced-block and
inline-span stripping) never changes the output — their composition is
idempotent — but the full `cleanResponseText` is not idempotent, because
the line-heuristic passes can strip further text on a second application
(see the counterexample). -/
theorem c9_amended_tick_passes_idem (t : String) :
    stripInline (stripFences (stripInline (stripFences t.data)))
      = stripInline (stripFences t.data) :=
  tickPasses_idem t.data

/-! ## Claim C5 -/

/-- **C5.**  Save-then-load round trip of the Response Store (fixed
variant): for a non-negative index, title, text and canonical supported
language, `saveResponse` persists a record which `loadStoredResponse`
returns, whose `questionIndex` is the given index, whose `language` is the
given language, and whose `response` is the *sanitized* text — the raw
text is never stored. -/
theorem c5_save_load_round_trip (i : Int) (t text L now : String)
    (hi : 0 ≤ i) (hL : L ∈ SUPPORTED_LANGUAGES) :
    ∃ r, saveResponseF i t text L now = some r ∧
      loadStoredResponse (some r) = some r ∧
      r.questionIndex = i ∧ r.language = L ∧
      r.response = cleanResponseTextF text := by
  refine ⟨{ questionIndex := i, title := t, language := L, languageDisplay := none,
            response := cleanResponseTextF text, timestamp := now },
          ?_, rfl, rfl, rfl, rfl⟩
  unfold saveResponseF
  rw [validateF_of_mem hL]

/-- Witness for C5 at a concrete input. -/
theorem c5_witness :
    ∃ r, saveResponseF 2 "Two Sum" "use `x` here" "python" "T0" = some r ∧
      loadStoredResponse (some r) = some r ∧
      r.questionIndex = 2 ∧ r.language = "python" ∧
      r.response = cleanResponseTextF "use `x` here" :=
  c5_save_load_round_trip 2 "Two Sum" "use `x` here" "python" "T0"
    (by decide) (by decide)

/-! ## Claim C6 -/

/-- **C6.**  Language validation is case-insensitive and follows exactly
one policy per variant: when the lowercased input is in the supported set,
the strict validator accepts it (returning the lowercase form) and the
lenient validator returns the lowercase form; otherwise (including the
absent/empty language) the strict validator raises an error and the
lenient one substitutes the default language — an unsupported value is
never accepted as-is. -/
theorem c6_language_validation (s : String) :
    (lowerStr s ∈ SUPPORTED_LANGUAGES →
      validateLanguageF s = .ok (lowerStr s) ∧ validateLanguageL s = lowerStr s) ∧
    (lowerStr s ∉ SUPPORTED_LANGUAGES →
      (∃ e, validateLanguageF s = .error e) ∧
        validateLanguageL s = DEFAULT_LANGUAGE) := by
  constructor
  · intro hmem
    have hs : ¬(s = "") := by
      rintro rfl
      revert hmem
      decide
    have hc : SUPPORTED_LANGUAGES.contains (lowerStr s) = true :=
      List.elem_iff.mpr hmem
    unfold validateLanguageF validateLanguageL
    rw [if_neg hs, if_neg hs, if_pos hc, if_pos hc]
    exact ⟨rfl, rfl⟩
  · intro hmem
    by_cases hs : s = ""
    · subst hs
      exact ⟨⟨_, rfl⟩, rfl⟩
    · have hc : ¬(SUPPORTED_LANGUAGES.contains (lowerStr s) = true) := by
        intro hcon
        exact hmem (List.elem_iff.mp hcon)
      unfold validateLanguageF validateLanguageL
      rw [if_neg hs, if_neg hs, if_neg hc, if_neg hc]
      exact ⟨⟨_, rfl⟩, rfl⟩

/-- Witness for C6: `"PYTHON"` is accepted case-insensitively as
`"python"`; `"rust"` and `""` are never accepted as-is. -/
theorem c6_witness :
    (validateLanguageF "PYTHON" = .ok "python" ∧
      validateLanguageL "PYTHON" = "python") ∧
    ((∃ e, validateLanguageF "rust" = .error e) ∧
      validateLanguageL "rust" = DEFAULT_LANGUAGE) ∧
    ((∃ e, validateLanguageF "" = .error e) ∧
      validateLanguageL "" = DEFAULT_LANGUAGE) := by
  refine ⟨?_, ?_, ?_⟩
  · have h := (c6_language_validation "PYTHON").1 (by decide)
    simpa using h
  · exact (c6_language_validation "rust").2 (by decide)
  · exact (c6_language_validation "").2 (by decide)

/-! ## Claim C7 -/

/-- Tail-recursive character-list equality (the kernel evaluates it in
constant stack, unlike the derived `DecidableEq` recursion). -/
def eqList : List Char → List Char → Bool
  | [], [] => true
  | a :: as, b :: bs => if a == b then eqList as bs else false
  | _, _ => false

theorem eqList_iff : ∀ {a b : List Char}, eqList a b = true ↔ a = b := by
  intro a
  induction a with
  | nil =>
    intro b
    rcases b with _ | ⟨c, cs⟩ <;> simp [eqList]
  | cons x xs ih =>
    intro b
    rcases b with _ | ⟨c, cs⟩
    · simp [eqList]
    · rw [eqList]
      by_cases hx : x == c
      · rw [if_pos hx]
        have hx' : x = c := by simpa using hx
        subst hx'
        simp [ih]
      · rw [if_neg hx]
        have hx' : ¬(x = c) := by simpa using hx
        simp [hx']


theorem infix_ext_left (x : List Char) {u y : List Char} (h : u <:+: y) :
    u <:+: x ++ y := by
  rcases h with ⟨p, q, rfl⟩
  exact ⟨x ++ p, q, by simp⟩

theorem infix_ext_right {u x : List Char} (h : u <:+: x) (y : List Char) :
    u <:+: x ++ y := by
  rcases h with ⟨p, q, rfl⟩
  exact ⟨p, q ++ y, by simp⟩

set_option maxRecDepth 40000 in
set_option maxHeartbeats 2000000 in
theorem noopF_eqList :
    eqList (cleanTextF (fallbackTextF "Two Sum" "Easy" "Python").data)
      (fallbackTextF "Two Sum" "Easy" "Python").data = true := by decide

set_option maxRecDepth 40000 in
set_option maxHeartbeats 2000000 in
theorem noopL_eqList :
    eqList (cleanTextL (fallbackTextL "Two Sum" "Easy" "Python"
        (getLanguageSpecificContext "python")).data)
      (fallbackTextL "Two Sum" "Easy" "Python"
        (getLanguageSpecificContext "python")).data = true := by decide

set_option maxRecDepth 40000 in
set_option maxHeartbeats 2000000 in
/-- **C7, amended.**  For every problem and canonical supported language,
the Fallback Generator of either variant succeeds and returns the
deterministic three-section template, whose text contains the variant's
three section headings, the problem's title and difficulty, and the
language's display name.  Its output contains no code *as long as the
problem's own fields are code-free*: for such a problem (here `(Two Sum,
Easy)`) sanitizing the fallback text is a no-op.  (A problem whose fields
themselves contain fenced code defeats the no-op — see the
counterexample.) -/
theorem c7_amended :
    (∀ (q : Problem) (L : String), L ∈ SUPPORTED_LANGUAGES →
      generateFallbackResponseF q L
          = .ok (fallbackTextF q.title q.difficulty (getLanguageDisplayNameF L)) ∧
      (("SECTION 1: Explaining the Problem").data
          <:+: (fallbackTextF q.title q.difficulty (getLanguageDisplayNameF L)).data) ∧
      (("SECTION 2: Solution Strategy").data
          <:+: (fallbackTextF q.title q.difficulty (getLanguageDisplayNameF L)).data) ∧
      (("SECTION 3: Step-by-Step Approach").data
          <:+: (fallbackTextF q.title q.difficulty (getLanguageDisplayNameF L)).data) ∧
      (q.title.data
          <:+: (fallbackTextF q.title q.difficulty (getLanguageDisplayNameF L)).data) ∧
      (q.difficulty.data
          <:+: (fallbackTextF q.title q.difficulty (getLanguageDisplayNameF L)).data) ∧
      ((getLanguageDisplayNameF L).data
          <:+: (fallbackTextF q.title q.difficulty (getLanguageDisplayNameF L)).data)) ∧
    (∀ (q : Problem) (L : String), L ∈ SUPPORTED_LANGUAGES →
      generateFallbackResponseL q L
          = fallbackTextL q.title q.difficulty (getLanguageDisplayNameL L)
              (getLanguageSpecificContext L) ∧
      (("SECTION 1: Explaining the Problem").data
          <:+: (fallbackTextL q.title q.difficulty (getLanguageDisplayNameL L)
                  (getLanguageSpecificContext L)).data) ∧
      (("SECTION 2: DSA Topics Involved").data
          <:+: (fallbackTextL q.title q.difficulty (getLanguageDisplayNameL L)
                  (getLanguageSpecificContext L)).data) ∧
      (("SECTION 3: Solution Strategy").data
          <:+: (fallbackTextL q.title q.difficulty (getLanguageDisplayNameL L)
                  (getLanguageSpecificContext L)).data) ∧
      (q.title.data
          <:+: (fallbackTextL q.title q.difficulty (getLanguageDisplayNameL L)
                  (getLanguageSpecificContext L)).data) ∧
      (q.difficulty.data
          <:+: (fallbackTextL q.title q.difficulty (getLanguageDisplayNameL L)
                  (getLanguageSpecificContext L)).data) ∧
      ((getLanguageDisplayNameL L).data
          <:+: (fallbackTextL q.title q.difficulty (getLanguageDisplayNameL L)
                  (getLanguageSpecificContext L)).data)) ∧
    cleanResponseTextF (fallbackTextF "Two Sum" "Easy" "Python")
        = fallbackTextF "Two Sum" "Easy" "Python" ∧
    cleanResponseTextL (fallbackTextL "Two Sum" "Easy" "Python"
          (getLanguageSpecificContext "python"))
        = fallbackTextL "Two Sum" "Easy" "Python"
            (getLanguageSpecificContext "python") := by
  refine ⟨?_, ?_, ?_, ?_⟩
  case refine_3 =>
    apply String.ext
    rw [cleanResponseTextF_data]
    exact eqList_iff.mp noopF_eqList
  case refine_4 =>
    apply String.ext
    rw [cleanResponseTextL_data]
    exact eqList_iff.mp noopL_eqList
  · intro q L hL
    refine ⟨?_, ?_, ?_, ?_, ?_, ?_, ?_⟩
    · simp [generateFallbackResponseF, validateF_of_mem hL, Except.map]
    · have h : ("SECTION 1: Explaining the Problem").data <:+: fbF1.data := by decide
      simp only [fallbackTextF, String.data_append, List.append_assoc]
      repeat first
        | exact infix_ext_right h _
        | exact h
        | apply infix_ext_left
    · have h : ("SECTION 2: Solution Strategy").data <:+: fbF4.data := by decide
      simp only [fallbackTextF, String.data_append, List.append_assoc]
      repeat first
        | exact infix_ext_right h _
        | exact h
        | apply infix_ext_left
    · have h : ("SECTION 3: Step-by-Step Approach").data <:+: fbF5.data := by decide
      simp only [fallbackTextF, String.data_append, List.append_assoc]
      repeat first
        | exact infix_ext_right h _
        | exact h
        | apply infix_ext_left
    · have h : q.title.data <:+: q.title.data := List.infix_refl _
      simp only [fallbackTextF, String.data_append, List.append_assoc]
      repeat first
        | exact infix_ext_right h _
        | exact h
        | apply infix_ext_left
    · have h : q.difficulty.data <:+: q.difficulty.data := List.infix_refl _
      simp only [fallbackTextF, String.data_append, List.append_assoc]
      repeat first
        | exact infix_ext_right h _
        | exact h
        | apply infix_ext_left
    · have h : (getLanguageDisplayNameF L).data <:+: (getLanguageDisplayNameF L).data :=
        List.infix_refl _
      simp only [fallbackTextF, String.data_append, List.append_assoc]
      repeat first
        | exact infix_ext_right h _
        | exact h
        | apply infix_ext_left
  · intro q L hL
    refine ⟨?_, ?_, ?_, ?_, ?_, ?_, ?_⟩
    · simp [generateFallbackResponseL, validateL_of_mem hL]
    · have h : ("SECTION 1: Explaining the Problem").data <:+: fbL1.data := by decide
      simp only [fallbackTextL, String.data_append, List.append_assoc]
      repeat first
        | exact infix_ext_right h _
        | exact h
        | apply infix_ext_left
    · have h : ("SECTION 2: DSA Topics Involved").data <:+: fbL4.data := by decide
      simp only [fallbackTextL, String.data_append, List.append_assoc]
      repeat first
        | exact infix_ext_right h _
        | exact h
        | apply infix_ext_left
    · have h : ("SECTION 3: Solution Strategy").data <:+: fbL4.data := by decide
      simp only [fallbackTextL, String.data_append, List.append_assoc]
      repeat first
        | exact infix_ext_right h _
        | exact h
        | apply infix_ext_left
    · have h : q.title.data <:+: q.title.data := List.infix_refl _
      simp only [fallbackTextL, String.data_append, List.append_assoc]
      repeat first
        | exact infix_ext_right h _
        | exact h
        | apply infix_ext_left
    · have h : q.difficulty.data <:+: q.difficulty.data := List.infix_refl _
      simp only [fallbackTextL, String.data_append, List.append_assoc]
      repeat first
        | exact infix_ext_right h _
        | exact h
        | apply infix_ext_left
    · have h : (getLanguageDisplayNameL L).data <:+: (getLanguageDisplayNameL L).data :=
        List.infix_refl _
      simp only [fallbackTextL, String.data_append, List.append_assoc]
      repeat first
        | exact infix_ext_right h _
        | exact h
        | apply infix_ext_left

def sampleProblem : Problem :=
  { title := "Two Sum", difficulty := "Easy", question := "Find two numbers",
    input_format := "array", output_format := "indices", constraints := "n",
    hint := "use a map", sample_input := "1 2", sample_output := "0 1" }

/-- Witness for C7 (amended) at a concrete problem and language. -/
theorem c7_witness :
    generateFallbackResponseF sampleProblem "java"
        = .ok (fallbackTextF sampleProblem.title sampleProblem.difficulty
            (getLanguageDisplayNameF "java")) ∧
    (("SECTION 2: Solution Strategy").data
        <:+: (fallbackTextF sampleProblem.title sampleProblem.difficulty
            (getLanguageDisplayNameF "java")).data) :=
  ⟨(c7_amended.1 sampleProblem "java" (by decide)).1,
   (c7_amended.1 sampleProblem "java" (by decide)).2.2.1⟩

def fencedTitleProblem : Problem :=
  { title := "\x60\x60\x60x = 1\x60\x60\x60", difficulty := "Easy",
    question := "", input_format := "", output_format := "", constraints := "",
    hint := "", sample_input := "", sample_output := "" }

set_option maxRecDepth 40000 in
set_option maxHeartbeats 2000000 in
theorem cexF_eqList_false :
    eqList
        (cleanTextF (fallbackTextF fencedTitleProblem.title
          fencedTitleProblem.difficulty (getLanguageDisplayNameF "python")).data)
        (fallbackTextF fencedTitleProblem.title fencedTitleProblem.difficulty
          (getLanguageDisplayNameF "python")).data = false := by decide

set_option maxRecDepth 40000 in
set_option maxHeartbeats 2000000 in
/-- **C7, counterexample.**  For a problem whose *title* contains a fenced
code block, the Fallback Generator's output does contain code, and
sanitizing it is not a no-op: the fence (and surrounding heuristics) strip
part of the text. -/
theorem c7_counterexample :
    generateFallbackResponseF fencedTitleProblem "python"
        = .ok (fallbackTextF fencedTitleProblem.title fencedTitleProblem.difficulty
            (getLanguageDisplayNameF "python")) ∧
    cleanResponseTextF (fallbackTextF fencedTitleProblem.title
          fencedTitleProblem.difficulty (getLanguageDisplayNameF "python"))
        ≠ fallbackTextF fencedTitleProblem.title fencedTitleProblem.difficulty
            (getLanguageDisplayNameF "python") := by
  constructor
  · unfold generateFallbackResponseF
    rw [validateF_of_mem (by decide : ("python" : String) ∈ SUPPORTED_LANGUAGES)]
    rfl
  · intro heq
    have hd := congrArg String.data heq
    rw [cleanResponseTextF_data] at hd
    have hfalse := cexF_eqList_false
    rw [eqList_iff.mpr hd] at hfalse
    exact absurd hfalse (by simp)

/-! ## Reduction lemmas for the four endpoint handlers

Each lemma evaluates a handler along one control-flow branch, under the
hypotheses that select that branch. -/

theorem validateF_nonempty {language nl : String}
    (h : validateLanguageF language = .ok nl) : ¬(language = "") := by
  intro he
  subst he
  simp [validateLanguageF] at h

theorem buildPromptF_ok {q : Problem} {language nl : String}
    (h : validateLanguageF language = .ok nl) :
    buildPromptF q nl = .ok (promptTextF q (getLanguageDisplayNameF nl)) := by
  unfold buildPromptF
  rw [validateF_of_mem (validateF_ok_mem h)]
  rfl

theorem generateFallbackResponseF_ok {q : Problem} {language nl : String}
    (h : validateLanguageF language = .ok nl) :
    generateFallbackResponseF q nl
      = .ok (fallbackTextF q.title q.difficulty (getLanguageDisplayNameF nl)) := by
  unfold generateFallbackResponseF
  rw [validateF_of_mem (validateF_ok_mem h)]
  rfl

theorem saveResponseF_ok {language nl : String} (i : Int) (t text now : String)
    (h : validateLanguageF language = .ok nl) :
    saveResponseF i t text nl now
      = some { questionIndex := i, title := t, language := nl,
               languageDisplay := none, response := cleanResponseTextF text,
               timestamp := now } := by
  unfold saveResponseF
  rw [validateF_of_mem (validateF_ok_mem h)]

/-- Fixed variant, cache-hit branch. -/
theorem esF_hit {questions : List Problem} {store : Option StoredResponse}
    {now : String} {parse : ParseFn} {inf : String → InfBehavior}
    {index : Int} {language nl : String} {refresh : Bool} {q : Problem}
    {st : StoredResponse}
    (h0 : ¬(questions.length = 0))
    (hLF : validateLanguageF language = .ok nl)
    (hQ : getQuestion questions index = some q)
    (hhit : cacheHitSt store index nl refresh = some st) :
    explainStreamF questions store now parse inf index language refresh
      = ([.metadata q.title nl (getLanguageDisplayNameF nl) true,
          .dataEv st.response false, .complete], store) := by
  unfold explainStreamF
  rw [if_neg h0, if_neg (validateF_nonempty hLF)]
  simp only [hLF, hQ, loadStoredResponse, hhit]

/-- Fixed variant, generation branch with the inference endpoint down. -/
theorem esF_unavail {questions : List Problem} {store : Option StoredResponse}
    {now : String} {parse : ParseFn} {inf : String → InfBehavior}
    {index : Int} {language nl msg : String} {refresh : Bool} {q : Problem}
    (h0 : ¬(questions.length = 0))
    (hLF : validateLanguageF language = .ok nl)
    (hQ : getQuestion questions index = some q)
    (hhit : cacheHitSt store index nl refresh = none)
    (hinf : inf (promptTextF q (getLanguageDisplayNameF nl)) = .unavailable msg) :
    explainStreamF questions store now parse inf index language refresh
      = ([.metadata q.title nl (getLanguageDisplayNameF nl) false,
          .dataEv (fallbackTextF q.title q.difficulty (getLanguageDisplayNameF nl)) true,
          .complete],
         some { questionIndex := index, title := q.title, language := nl,
                languageDisplay := none,
                response := cleanResponseTextF
                  (fallbackTextF q.title q.difficulty (getLanguageDisplayNameF nl)),
                timestamp := now }) := by
  unfold explainStreamF
  rw [if_neg h0, if_neg (validateF_nonempty hLF)]
  simp only [hLF, hQ, loadStoredResponse, hhit, buildPromptF_ok hLF, hinf,
    generateFallbackResponseF_ok hLF, saveResponseF_ok index q.title _ now hLF]

/-- Fixed variant, generation branch with a normally ended stream. -/
theorem esF_normal {questions : List Problem} {store : Option StoredResponse}
    {now : String} {parse : ParseFn} {inf : String → InfBehavior}
    {index : Int} {language nl : String} {refresh : Bool} {q : Problem}
    {chunks : List String}
    (h0 : ¬(questions.length = 0))
    (hLF : validateLanguageF language = .ok nl)
    (hQ : getQuestion questions index = some q)
    (hhit : cacheHitSt store index nl refresh = none)
    (hinf : inf (promptTextF q (getLanguageDisplayNameF nl))
      = .streamed chunks .normal) :
    explainStreamF questions store now parse inf index language refresh
      = (.metadata q.title nl (getLanguageDisplayNameF nl) false ::
          (genFragments parse chunks).map (fun t => SEvent.dataEv t false)
          ++ [.complete],
         some { questionIndex := index, title := q.title, language := nl,
                languageDisplay := none,
                response := cleanResponseTextF
                  (String.join (genFragments parse chunks)),
                timestamp := now }) := by
  unfold explainStreamF
  rw [if_neg h0, if_neg (validateF_nonempty hLF)]
  simp only [hLF, hQ, loadStoredResponse, hhit, buildPromptF_ok hLF, hinf,
    saveResponseF_ok index q.title _ now hLF]

/-- Fixed variant, generation branch with a mid-stream transport error. -/
theorem esF_errored {questions : List Problem} {store : Option StoredResponse}
    {now : String} {parse : ParseFn} {inf : String → InfBehavior}
    {index : Int} {language nl msg : String} {refresh : Bool} {q : Problem}
    {chunks : List String}
    (h0 : ¬(questions.length = 0))
    (hLF : validateLanguageF language = .ok nl)
    (hQ : getQuestion questions index = some q)
    (hhit : cacheHitSt store index nl refresh = none)
    (hinf : inf (promptTextF q (getLanguageDisplayNameF nl))
      = .streamed chunks (.errored msg)) :
    explainStreamF questions store now parse inf index language refresh
      = (.metadata q.title nl (getLanguageDisplayNameF nl) false ::
          (streamFrags parse chunks).1.map (fun t => SEvent.dataEv t false)
          ++ [.errorEv msg], store) := by
  unfold explainStreamF
  rw [if_neg h0, if_neg (validateF_nonempty hLF)]
  simp only [hLF, hQ, loadStoredResponse, hhit, buildPromptF_ok hLF, hinf]

theorem buildPromptL_eq {q : Problem} {nl : String}
    (hmem : nl ∈ SUPPORTED_LANGUAGES) :
    buildPromptL q nl
      = promptTextL q (getLanguageDisplayNameL nl) (getLanguageSpecificContext nl) := by
  unfold buildPromptL
  rw [validateL_of_mem hmem]

theorem generateFallbackResponseL_eq {q : Problem} {nl : String}
    (hmem : nl ∈ SUPPORTED_LANGUAGES) :
    generateFallbackResponseL q nl
      = fallbackTextL q.title q.difficulty (getLanguageDisplayNameL nl)
          (getLanguageSpecificContext nl) := by
  unfold generateFallbackResponseL
  rw [validateL_of_mem hmem]

theorem saveResponseL_eq {nl : String} (i : Int) (t text now : String)
    (hmem : nl ∈ SUPPORTED_LANGUAGES) :
    saveResponseL i t text nl now
      = { questionIndex := i, title := t, language := nl,
          languageDisplay := some (getLanguageDisplayNameL nl),
          response := cleanResponseTextL text, timestamp := now } := by
  unfold saveResponseL
  rw [validateL_of_mem hmem]

/-- Lenient variant, cache-hit branch. -/
theorem esL_hit {questions : List Problem} {store : Option StoredResponse}
    {now : String} {parse : ParseFn} {inf : String → InfBehavior}
    {index : Int} {language nl : String} {refresh : Bool} {q : Problem}
    {st : StoredResponse}
    (h0 : ¬(questions.length = 0))
    (hnl : validateLanguageL language = nl)
    (hQ : getQuestion questions index = some q)
    (hhit : cacheHitSt store index nl refresh = some st) :
    explainStreamL questions store now parse inf index language refresh
      = ([.metadata q.title nl (getLanguageDisplayNameL nl) true,
          .dataEv st.response false, .complete], store) := by
  unfold explainStreamL
  rw [if_neg h0]
  simp only [hnl, hQ, loadStoredResponse, hhit]

/-- Lenient variant, generation branch with the inference endpoint down. -/
theorem esL_unavail {questions : List Problem} {store : Option StoredResponse}
    {now : String} {parse : ParseFn} {inf : String → InfBehavior}
    {index : Int} {language nl msg : String} {refresh : Bool} {q : Problem}
    (h0 : ¬(questions.length = 0))
    (hnl : validateLanguageL language = nl)
    (hQ : getQuestion questions index = some q)
    (hhit : cacheHitSt store index nl refresh = none)
    (hinf : inf (promptTextL q (getLanguageDisplayNameL nl)
      (getLanguageSpecificContext nl)) = .unavailable msg) :
    explainStreamL questions store now parse inf index language refresh
      = ([.metadata q.title nl (getLanguageDisplayNameL nl) false,
          .dataEv (fallbackTextL q.title q.difficulty (getLanguageDisplayNameL nl)
            (getLanguageSpecificContext nl)) true,
          .complete],
         some { questionIndex := index, title := q.title, language := nl,
                languageDisplay := some (getLanguageDisplayNameL nl),
                response := cleanResponseTextL
                  (fallbackTextL q.title q.difficulty (getLanguageDisplayNameL nl)
                    (getLanguageSpecificContext nl)),
                timestamp := now }) := by
  have hmem : nl ∈ SUPPORTED_LANGUAGES := hnl ▸ validateL_mem language
  unfold explainStreamL
  rw [if_neg h0]
  simp only [hnl, hQ, loadStoredResponse, hhit, buildPromptL_eq hmem, hinf,
    generateFallbackResponseL_eq hmem, saveResponseL_eq index q.title _ now hmem]

/-- Lenient variant, generation branch with a normally ended stream. -/
theorem esL_normal {questions : List Problem} {store : Option StoredResponse}
    {now : String} {parse : ParseFn} {inf : String → InfBehavior}
    {index : Int} {language nl : String} {refresh : Bool} {q : Problem}
    {chunks : List String}
    (h0 : ¬(questions.length = 0))
    (hnl : validateLanguageL language = nl)
    (hQ : getQuestion questions index = some q)
    (hhit : cacheHitSt store index nl refresh = none)
    (hinf : inf (promptTextL q (getLanguageDisplayNameL nl)
      (getLanguageSpecificContext nl)) = .streamed chunks .normal) :
    explainStreamL questions store now parse inf index language refresh
      = (.metadata q.title nl (getLanguageDisplayNameL nl) false ::
          (genFragments parse chunks).map (fun t => SEvent.dataEv t false)
          ++ [.complete],
         some { questionIndex := index, title := q.title, language := nl,
                languageDisplay := some (getLanguageDisplayNameL nl),
                response := cleanResponseTextL
                  (String.join (genFragments parse chunks)),
                timestamp := now }) := by
  have hmem : nl ∈ SUPPORTED_LANGUAGES := hnl ▸ validateL_mem language
  unfold explainStreamL
  rw [if_neg h0]
  simp only [hnl, hQ, loadStoredResponse, hhit, buildPromptL_eq hmem, hinf,
    saveResponseL_eq index q.title _ now hmem]

/-- Lenient variant, generation branch with a mid-stream transport error. -/
theorem esL_errored {questions : List Problem} {store : Option StoredResponse}
    {now : String} {parse : ParseFn} {inf : String → InfBehavior}
    {index : Int} {language nl msg : String} {refresh : Bool} {q : Problem}
    {chunks : List String}
    (h0 : ¬(questions.length = 0))
    (hnl : validateLanguageL language = nl)
    (hQ : getQuestion questions index = some q)
    (hhit : cacheHitSt store index nl refresh = none)
    (hinf : inf (promptTextL q (getLanguageDisplayNameL nl)
      (getLanguageSpecificContext nl)) = .streamed chunks (.errored msg)) :
    explainStreamL questions store now parse inf index language refresh
      = (.metadata q.title nl (getLanguageDisplayNameL nl) false ::
          (streamFrags parse chunks).1.map (fun t => SEvent.dataEv t false)
          ++ [.errorEv msg], store) := by
  have hmem : nl ∈ SUPPORTED_LANGUAGES := hnl ▸ validateL_mem language
  unfold explainStreamL
  rw [if_neg h0]
  simp only [hnl, hQ, loadStoredResponse, hhit, buildPromptL_eq hmem, hinf]

/-- Fixed variant `/explain`, cache-hit branch. -/
theorem efF_hit {questions : List Problem} {store : Option StoredResponse}
    {now : String} {parse : ParseFn} {inf : String → InfBehavior}
    {index : Int} {language nl : String} {refresh : Bool} {q : Problem}
    {st : StoredResponse}
    (h0 : ¬(questions.length = 0))
    (hLF : validateLanguageF language = .ok nl)
    (hQ : getQuestion questions index = some q)
    (hhit : cacheHitSt store index nl refresh = some st) :
    explainF questions store now parse inf index language refresh
      = (some (.json { title := q.title, language := some nl,
                       languageDisplay := some (getLanguageDisplayNameF nl),
                       response := st.response, fromCache := some true,
                       fallback := none }), store) := by
  unfold explainF
  rw [if_neg h0, if_neg (validateF_nonempty hLF)]
  simp only [hLF, hQ, loadStoredResponse, hhit]

/-- Fixed variant `/explain`, fallback branch (connection failure, and
equally a mid-stream transport error, whose rejection the inner `await`
rethrows into the same `apiError` catch). -/
theorem efF_unavail {questions : List Problem} {store : Option StoredResponse}
    {now : String} {parse : ParseFn} {inf : String → InfBehavior}
    {index : Int} {language nl msg : String} {refresh : Bool} {q : Problem}
    (h0 : ¬(questions.length = 0))
    (hLF : validateLanguageF language = .ok nl)
    (hQ : getQuestion questions index = some q)
    (hhit : cacheHitSt store index nl refresh = none)
    (hinf : inf (promptTextF q (getLanguageDisplayNameF nl)) = .unavailable msg) :
    explainF questions store now parse inf index language refresh
      = (some (.json { title := q.title, language := some nl,
                       languageDisplay := some (getLanguageDisplayNameF nl),
                       response := fallbackTextF q.title q.difficulty
                         (getLanguageDisplayNameF nl),
                       fromCache := none, fallback := some true }),
         some { questionIndex := index, title := q.title, language := nl,
                languageDisplay := none,
                response := cleanResponseTextF
                  (fallbackTextF q.title q.difficulty (getLanguageDisplayNameF nl)),
                timestamp := now }) := by
  unfold explainF
  rw [if_neg h0, if_neg (validateF_nonempty hLF)]
  simp only [hLF, hQ, loadStoredResponse, hhit, buildPromptF_ok hLF, hinf,
    generateFallbackResponseF_ok hLF, saveResponseF_ok index q.title _ now hLF]

/-- Fixed variant `/explain`, mid-stream transport error: same result as
the connection-failure branch. -/
theorem efF_errored {questions : List Problem} {store : Option StoredResponse}
    {now : String} {parse : ParseFn} {inf : String → InfBehavior}
    {index : Int} {language nl msg : String} {refresh : Bool} {q : Problem}
    {chunks : List String}
    (h0 : ¬(questions.length = 0))
    (hLF : validateLanguageF language = .ok nl)
    (hQ : getQuestion questions index = some q)
    (hhit : cacheHitSt store index nl refresh = none)
    (hinf : inf (promptTextF q (getLanguageDisplayNameF nl))
      = .streamed chunks (.errored msg)) :
    explainF questions store now parse inf index language refresh
      = (some (.json { title := q.title, language := some nl,
                       languageDisplay := some (getLanguageDisplayNameF nl),
                       response := fallbackTextF q.title q.difficulty
                         (getLanguageDisplayNameF nl),
                       fromCache := none, fallback := some true }),
         some { questionIndex := index, title := q.title, language := nl,
                languageDisplay := none,
                response := cleanResponseTextF
                  (fallbackTextF q.title q.difficulty (getLanguageDisplayNameF nl)),
                timestamp := now }) := by
  unfold explainF
  rw [if_neg h0, if_neg (validateF_nonempty hLF)]
  simp only [hLF, hQ, loadStoredResponse, hhit, buildPromptF_ok hLF, hinf,
    generateFallbackResponseF_ok hLF, saveResponseF_ok index q.title _ now hLF]

/-- Fixed variant `/explain`, normally ended stream. -/
theorem efF_normal {questions : List Problem} {store : Option StoredResponse}
    {now : String} {parse : ParseFn} {inf : String → InfBehavior}
    {index : Int} {language nl : String} {refresh : Bool} {q : Problem}
    {chunks : List String}
    (h0 : ¬(questions.length = 0))
    (hLF : validateLanguageF language = .ok nl)
    (hQ : getQuestion questions index = some q)
    (hhit : cacheHitSt store index nl refresh = none)
    (hinf : inf (promptTextF q (getLanguageDisplayNameF nl))
      = .streamed chunks .normal) :
    explainF questions store now parse inf index language refresh
      = (some (.json { title := q.title, language := some nl,
                       languageDisplay := some (getLanguageDisplayNameF nl),
                       response := String.join (genFragments parse chunks),
                       fromCache := none, fallback := none }),
         some { questionIndex := index, title := q.title, language := nl,
                languageDisplay := none,
                response := cleanResponseTextF
                  (String.join (genFragments parse chunks)),
                timestamp := now }) := by
  unfold explainF
  rw [if_neg h0, if_neg (validateF_nonempty hLF)]
  simp only [hLF, hQ, loadStoredResponse, hhit, buildPromptF_ok hLF, hinf,
    saveResponseF_ok index q.title _ now hLF]

/-- Lenient variant `/explain`, cache-hit branch. -/
theorem efL_hit {questions : List Problem} {store : Option StoredResponse}
    {now : String} {parse : ParseFn} {inf : String → InfBehavior}
    {index : Int} {language nl : String} {refresh : Bool} {q : Problem}
    {st : StoredResponse}
    (h0 : ¬(questions.length = 0))
    (hnl : validateLanguageL language = nl)
    (hQ : getQuestion questions index = some q)
    (hhit : cacheHitSt store index nl refresh = some st) :
    explainL questions store now parse inf index language refresh
      = (some (.json { title := q.title, language := some nl,
                       languageDisplay := some (getLanguageDisplayNameL nl),
                       response := st.response, fromCache := some true,
                       fallback := none }), store) := by
  unfold explainL
  rw [if_neg h0]
  simp only [hnl, hQ, loadStoredResponse, hhit]

/-- Lenient variant `/explain`, fallback branch. -/
theorem efL_unavail {questions : List Problem} {store : Option StoredResponse}
    {now : String} {parse : ParseFn} {inf : String → InfBehavior}
    {index : Int} {language nl msg : String} {refresh : Bool} {q : Problem}
    (h0 : ¬(questions.length = 0))
    (hnl : validateLanguageL language = nl)
    (hQ : getQuestion questions index = some q)
    (hhit : cacheHitSt store index nl refresh = none)
    (hinf : inf (promptTextL q (getLanguageDisplayNameL nl)
      (getLanguageSpecificContext nl)) = .unavailable msg) :
    explainL questions store now parse inf index language refresh
      = (some (.json { title := q.title, language := some nl,
                       languageDisplay := some (getLanguageDisplayNameL nl),
                       response := fallbackTextL q.title q.difficulty
                         (getLanguageDisplayNameL nl) (getLanguageSpecificContext nl),
                       fromCache := none, fallback := some true }),
         some { questionIndex := index, title := q.title, language := nl,
                languageDisplay := some (getLanguageDisplayNameL nl),
                response := cleanResponseTextL
                  (fallbackTextL q.title q.difficulty (getLanguageDisplayNameL nl)
                    (getLanguageSpecificContext nl)),
                timestamp := now }) := by
  have hmem : nl ∈ SUPPORTED_LANGUAGES := hnl ▸ validateL_mem language
  unfold explainL
  rw [if_neg h0]
  simp only [hnl, hQ, loadStoredResponse, hhit, buildPromptL_eq hmem, hinf,
    generateFallbackResponseL_eq hmem, saveResponseL_eq index q.title _ now hmem]

/-- Lenient variant `/explain`, normally ended stream: the record is saved
with the *default* language (the `saveResponse` call omits its language
argument) and the body has only `title` and `response`. -/
theorem efL_normal {questions : List Problem} {store : Option StoredResponse}
    {now : String} {parse : ParseFn} {inf : String → InfBehavior}
    {index : Int} {language nl : String} {refresh : Bool} {q : Problem}
    {chunks : List String}
    (h0 : ¬(questions.length = 0))
    (hnl : validateLanguageL language = nl)
    (hQ : getQuestion questions index = some q)
    (hhit : cacheHitSt store index nl refresh = none)
    (hinf : inf (promptTextL q (getLanguageDisplayNameL nl)
      (getLanguageSpecificContext nl)) = .streamed chunks .normal) :
    explainL questions store now parse inf index language refresh
      = (some (.json { title := q.title, language := none,
                       languageDisplay := none,
                       response := String.join (genFragments parse chunks),
                       fromCache := none, fallback := none }),
         some { questionIndex := index, title := q.title,
                language := DEFAULT_LANGUAGE,
                languageDisplay := some (getLanguageDisplayNameL DEFAULT_LANGUAGE),
                response := cleanResponseTextL
                  (String.join (genFragments parse chunks)),
                timestamp := now }) := by
  unfold explainL
  rw [if_neg h0]
  simp only [hnl, hQ, loadStoredResponse, hhit, buildPromptL_eq (hnl ▸ validateL_mem language),
    hinf, saveResponseL_eq index q.title _ now (by decide : DEFAULT_LANGUAGE ∈ SUPPORTED_LANGUAGES)]

/-- Lenient variant `/explain`, mid-stream transport error: the rejected
promise is never caught, so no response is sent and nothing is saved. -/
theorem efL_errored {questions : List Problem} {store : Option StoredResponse}
    {now : String} {parse : ParseFn} {inf : String → InfBehavior}
    {index : Int} {language nl msg : String} {refresh : Bool} {q : Problem}
    {chunks : List String}
    (h0 : ¬(questions.length = 0))
    (hnl : validateLanguageL language = nl)
    (hQ : getQuestion questions index = some q)
    (hhit : cacheHitSt store index nl refresh = none)
    (hinf : inf (promptTextL q (getLanguageDisplayNameL nl)
      (getLanguageSpecificContext nl)) = .streamed chunks (.errored msg)) :
    explainL questions store now parse inf index language refresh
      = (none, store) := by
  unfold explainL
  rw [if_neg h0]
  simp only [hnl, hQ, loadStoredResponse, hhit, buildPromptL_eq (hnl ▸ validateL_mem language), hinf]

/-! ## The cache-hit condition as a proposition -/

/-- The cache-hit condition of the claims: force-refresh is off, a stored
response exists, and its question index and language both equal the
request's. -/
def HitP (store : Option StoredResponse) (index : Int) (nl : String)
    (refresh : Bool) : Prop :=
  refresh = false ∧
    ∃ st, store = some st ∧ st.questionIndex = index ∧ st.language = nl

theorem cacheHitSt_some_iff {store : Option StoredResponse} {index : Int}
    {nl : String} {refresh : Bool} {st : StoredResponse} :
    cacheHitSt store index nl refresh = some st ↔
      store = some st ∧ refresh = false ∧
        st.questionIndex = index ∧ st.language = nl := by
  rcases store with _ | s
  · simp [cacheHitSt]
  · simp only [cacheHitSt]
    by_cases hc : (!refresh && s.questionIndex == index && s.language == nl) = true
    · rw [if_pos hc]
      simp only [Bool.and_eq_true, Bool.not_eq_true', beq_iff_eq] at hc
      obtain ⟨⟨hr, hqi⟩, hlang⟩ := hc
      constructor
      · intro h
        injection h with h
        subst h
        exact ⟨rfl, hr, hqi, hlang⟩
      · rintro ⟨hst, -, -, -⟩
        injection hst with hst
        rw [hst]
    · rw [if_neg hc]
      refine iff_of_false (by simp) ?_
      rintro ⟨hst, hr, hqi, hlang⟩
      injection hst with hst
      subst hst
      simp only [Bool.and_eq_true, Bool.not_eq_true', beq_iff_eq] at hc
      exact hc ⟨⟨hr, hqi⟩, hlang⟩

theorem hitP_of_some {store : Option StoredResponse} {index : Int}
    {nl : String} {refresh : Bool} {st : StoredResponse}
    (h : cacheHitSt store index nl refresh = some st) :
    store = some st ∧ HitP store index nl refresh := by
  obtain ⟨hst, hr, hqi, hlang⟩ := cacheHitSt_some_iff.mp h
  exact ⟨hst, hr, st, hst, hqi, hlang⟩

theorem some_of_hitP {store : Option StoredResponse} {index : Int}
    {nl : String} {refresh : Bool} (h : HitP store index nl refresh) :
    ∃ st, store = some st ∧ cacheHitSt store index nl refresh = some st := by
  obtain ⟨hr, st, hst, hqi, hlang⟩ := h
  exact ⟨st, hst, cacheHitSt_some_iff.mpr ⟨hst, hr, hqi, hlang⟩⟩

theorem none_of_not_hitP {store : Option StoredResponse} {index : Int}
    {nl : String} {refresh : Bool} (h : ¬ HitP store index nl refresh) :
    cacheHitSt store index nl refresh = none := by
  rcases hc : cacheHitSt store index nl refresh with _ | st
  · rfl
  · exact absurd (hitP_of_some hc).2 h

/-! ## Claim C1 -/

/-- **C1.**  Under a loaded catalog, a found question and a validated
language: the stream announces a cached response (a `fromCache = true`
metadata event) exactly when force-refresh is off and the stored record
matches the request's question index and validated language (`HitP`); on a
hit the whole stream is `metadata(fromCache=true)`, one data event with
the stored text verbatim, then `complete`, and the output is the same for
every inference endpoint and parser (the endpoint is not consulted); on a
miss — in particular whenever the stored language differs from the
requested one — the stream opens with a `fromCache = false` metadata event
and a new response is generated.  Both server variants are covered. -/
theorem c1_cache_hit_iff
    (questions : List Problem) (store : Option StoredResponse) (now : String)
    (parse : ParseFn) (inf : String → InfBehavior)
    (index : Int) (language nl : String) (refresh : Bool) (q : Problem)
    (h0 : ¬(questions.length = 0))
    (hQ : getQuestion questions index = some q)
    (hLF : validateLanguageF language = .ok nl) :
    ((.metadata q.title nl (getLanguageDisplayNameF nl) true
        ∈ (explainStreamF questions store now parse inf index language refresh).1)
      ↔ HitP store index nl refresh) ∧
    (HitP store index nl refresh →
      ∃ st, store = some st ∧
        ∀ (parse₂ : ParseFn) (inf₂ : String → InfBehavior),
          explainStreamF questions store now parse₂ inf₂ index language refresh
            = ([.metadata q.title nl (getLanguageDisplayNameF nl) true,
                .dataEv st.response false, .complete], store)) ∧
    (¬ HitP store index nl refresh →
      (explainStreamF questions store now parse inf index language refresh).1.head?
        = some (.metadata q.title nl (getLanguageDisplayNameF nl) false)) ∧
    ((.metadata q.title (validateLanguageL language)
          (getLanguageDisplayNameL (validateLanguageL language)) true
        ∈ (explainStreamL questions store now parse inf index language refresh).1)
      ↔ HitP store index (validateLanguageL language) refresh) ∧
    (HitP store index (validateLanguageL language) refresh →
      ∃ st, store = some st ∧
        ∀ (parse₂ : ParseFn) (inf₂ : String → InfBehavior),
          explainStreamL questions store now parse₂ inf₂ index language refresh
            = ([.metadata q.title (validateLanguageL language)
                  (getLanguageDisplayNameL (validateLanguageL language)) true,
                .dataEv st.response false, .complete], store)) ∧
    (¬ HitP store index (validateLanguageL language) refresh →
      (explainStreamL questions store now parse inf index language refresh).1.head?
        = some (.metadata q.title (validateLanguageL language)
            (getLanguageDisplayNameL (validateLanguageL language)) false)) := by
  refine ⟨?_, ?_, ?_, ?_, ?_, ?_⟩
  · by_cases hp : HitP store index nl refresh
    · obtain ⟨st, hst, hhit⟩ := some_of_hitP hp
      rw [esF_hit h0 hLF hQ hhit]
      simpa using hp
    · have hhit := none_of_not_hitP hp
      rcases hinf : inf (promptTextF q (getLanguageDisplayNameF nl))
        with msg | ⟨chunks, ending⟩
      · rw [esF_unavail h0 hLF hQ hhit hinf]
        simpa using hp
      · rcases ending with _ | msg
        · rw [esF_normal h0 hLF hQ hhit hinf]
          simp only [List.mem_cons, List.mem_append, List.mem_map, List.mem_singleton]
          simp
          exact hp
        · rw [esF_errored h0 hLF hQ hhit hinf]
          simp only [List.mem_cons, List.mem_append, List.mem_map, List.mem_singleton]
          simp
          exact hp
  · intro hp
    obtain ⟨st, hst, hhit⟩ := some_of_hitP hp
    exact ⟨st, hst, fun parse₂ inf₂ => esF_hit h0 hLF hQ hhit⟩
  · intro hp
    have hhit := none_of_not_hitP hp
    rcases hinf : inf (promptTextF q (getLanguageDisplayNameF nl))
      with msg | ⟨chunks, ending⟩
    · rw [esF_unavail h0 hLF hQ hhit hinf]
      rfl
    · rcases ending with _ | msg
      · rw [esF_normal h0 hLF hQ hhit hinf]
        rfl
      · rw [esF_errored h0 hLF hQ hhit hinf]
        rfl
  · by_cases hp : HitP store index (validateLanguageL language) refresh
    · obtain ⟨st, hst, hhit⟩ := some_of_hitP hp
      rw [esL_hit h0 rfl hQ hhit]
      simpa using hp
    · have hhit := none_of_not_hitP hp
      rcases hinf : inf (promptTextL q
          (getLanguageDisplayNameL (validateLanguageL language))
          (getLanguageSpecificContext (validateLanguageL language)))
        with msg | ⟨chunks, ending⟩
      · rw [esL_unavail h0 rfl hQ hhit hinf]
        simpa using hp
      · rcases ending with _ | msg
        · rw [esL_normal h0 rfl hQ hhit hinf]
          simp only [List.mem_cons, List.mem_append, List.mem_map, List.mem_singleton]
          simp
          exact hp
        · rw [esL_errored h0 rfl hQ hhit hinf]
          simp only [List.mem_cons, List.mem_append, List.mem_map, List.mem_singleton]
          simp
          exact hp
  · intro hp
    obtain ⟨st, hst, hhit⟩ := some_of_hitP hp
    exact ⟨st, hst, fun parse₂ inf₂ => esL_hit h0 rfl hQ hhit⟩
  · intro hp
    have hhit := none_of_not_hitP hp
    rcases hinf : inf (promptTextL q
        (getLanguageDisplayNameL (validateLanguageL language))
        (getLanguageSpecificContext (validateLanguageL language)))
      with msg | ⟨chunks, ending⟩
    · rw [esL_unavail h0 rfl hQ hhit hinf]
      rfl
    · rcases ending with _ | msg
      · rw [esL_normal h0 rfl hQ hhit hinf]
        rfl
      · rw [esL_errored h0 rfl hQ hhit hinf]
        rfl

def cachedRecord : StoredResponse :=
  { questionIndex := 0, title := "Two Sum", language := "python",
    languageDisplay := none, response := "CACHED", timestamp := "T0" }

/-- Witness for C1: with a matching stored record and `refresh = false`,
the fixed variant serves the cached text and ignores the inference
endpoint. -/
theorem c1_witness :
    ∃ st, some cachedRecord = some st ∧
      ∀ (parse₂ : ParseFn) (inf₂ : String → InfBehavior),
        explainStreamF [sampleProblem] (some cachedRecord) "T1" parse₂ inf₂
            0 "python" false
          = ([.metadata sampleProblem.title "python"
                (getLanguageDisplayNameF "python") true,
              .dataEv st.response false, .complete], some cachedRecord) :=
  (c1_cache_hit_iff [sampleProblem] (some cachedRecord) "T1"
      (fun _ => .error ()) (fun _ => .unavailable "down") 0 "python" "python"
      false sampleProblem (by decide) (by decide) (by decide)).2.1
    ⟨rfl, cachedRecord, rfl, rfl, rfl⟩

/-! ## Claim C2 -/

def isFallbackData : SEvent → Bool
  | .dataEv _ true => true
  | _ => false

/-- **C2, amended.**  When the inference *request itself* fails
(connection refused, timeout, non-success status — the `await axios.post`
throws before any stream is delivered), both variants emit the Fallback
Generator's output as a single data event tagged `fallback = true`
followed by `complete`, persist the sanitized fallback output to the
Response Store, and emit no SSE error event.  (A transport error *after*
streaming began is surfaced as an SSE error event without fallback — see
the counterexample — and malformed stream lines are skipped silently
rather than triggering the fallback.) -/
theorem c2_amended
    (questions : List Problem) (store : Option StoredResponse) (now : String)
    (parse : ParseFn) (inf : String → InfBehavior)
    (index : Int) (language nl msg : String) (refresh : Bool) (q : Problem)
    (h0 : ¬(questions.length = 0))
    (hQ : getQuestion questions index = some q)
    (hLF : validateLanguageF language = .ok nl)
    (hhitF : cacheHitSt store index nl refresh = none)
    (hinfF : inf (promptTextF q (getLanguageDisplayNameF nl)) = .unavailable msg)
    (hhitL : cacheHitSt store index (validateLanguageL language) refresh = none)
    (hinfL : inf (promptTextL q
      (getLanguageDisplayNameL (validateLanguageL language))
      (getLanguageSpecificContext (validateLanguageL language)))
      = .unavailable msg) :
    explainStreamF questions store now parse inf index language refresh
      = ([.metadata q.title nl (getLanguageDisplayNameF nl) false,
          .dataEv (fallbackTextF q.title q.difficulty (getLanguageDisplayNameF nl)) true,
          .complete],
         some { questionIndex := index, title := q.title, language := nl,
                languageDisplay := none,
                response := cleanResponseTextF
                  (fallbackTextF q.title q.difficulty (getLanguageDisplayNameF nl)),
                timestamp := now }) ∧
    (∀ m, SEvent.errorEv m
        ∉ (explainStreamF questions store now parse inf index language refresh).1) ∧
    explainStreamL questions store now parse inf index language refresh
      = ([.metadata q.title (validateLanguageL language)
            (getLanguageDisplayNameL (validateLanguageL language)) false,
          .dataEv (fallbackTextL q.title q.difficulty
            (getLanguageDisplayNameL (validateLanguageL language))
            (getLanguageSpecificContext (validateLanguageL language))) true,
          .complete],
         some { questionIndex := index, title := q.title,
                language := validateLanguageL language,
                languageDisplay := some
                  (getLanguageDisplayNameL (validateLanguageL language)),
                response := cleanResponseTextL
                  (fallbackTextL q.title q.difficulty
                    (getLanguageDisplayNameL (validateLanguageL language))
                    (getLanguageSpecificContext (validateLanguageL language))),
                timestamp := now }) ∧
    (∀ m, SEvent.errorEv m
        ∉ (explainStreamL questions store now parse inf index language refresh).1) := by
  refine ⟨esF_unavail h0 hLF hQ hhitF hinfF, ?_, esL_unavail h0 rfl hQ hhitL hinfL, ?_⟩
  · intro m
    rw [esF_unavail h0 hLF hQ hhitF hinfF]
    simp
  · intro m
    rw [esL_unavail h0 rfl hQ hhitL hinfL]
    simp

/-- Witness for C2 (amended) at a concrete request with the endpoint
down. -/
theorem c2_witness :
    explainStreamF [sampleProblem] none "T2" (fun _ => .error ())
        (fun _ => .unavailable "ECONNREFUSED") 0 "java" false
      = ([.metadata sampleProblem.title "java" (getLanguageDisplayNameF "java") false,
          .dataEv (fallbackTextF sampleProblem.title sampleProblem.difficulty
            (getLanguageDisplayNameF "java")) true,
          .complete],
         some { questionIndex := 0, title := sampleProblem.title,
                language := "java", languageDisplay := none,
                response := cleanResponseTextF
                  (fallbackTextF sampleProblem.title sampleProblem.difficulty
                    (getLanguageDisplayNameF "java")),
                timestamp := "T2" }) :=
  (c2_amended [sampleProblem] none "T2" (fun _ => .error ())
      (fun _ => .unavailable "ECONNREFUSED") 0 "java" "java" "ECONNREFUSED"
      false sampleProblem (by decide) (by decide) (by decide)
      rfl rfl rfl rfl).1

/-- **C2, counterexample.**  A transport error *during* streaming is
surfaced to the client as an SSE `error` event: the stream ends in
`errorEv`, no fallback-tagged data event is emitted, and nothing is
persisted — contradicting the claim that an inference failure at any
point is silently substituted with the fallback. -/
theorem c2_counterexample :
    explainStreamF [sampleProblem] none "T3" (fun l => .ok l)
        (fun _ => .streamed ["x\n"] (.errored "socket hang up")) 0 "python" false
      = ([.metadata sampleProblem.title "python" (getLanguageDisplayNameF "python") false,
          .dataEv "x" false, .errorEv "socket hang up"], none) ∧
    (explainStreamF [sampleProblem] none "T3" (fun l => .ok l)
        (fun _ => .streamed ["x\n"] (.errored "socket hang up")) 0 "python" false).1.getLast?
      = some (.errorEv "socket hang up") ∧
    (∀ e ∈ (explainStreamF [sampleProblem] none "T3" (fun l => .ok l)
        (fun _ => .streamed ["x\n"] (.errored "socket hang up")) 0 "python" false).1,
      isFallbackData e = false) := by
  refine ⟨?_, by decide, by decide⟩
  rw [esF_errored
    (show ¬(([sampleProblem] : List Problem).length = 0) by decide)
    (show validateLanguageF "python" = .ok "python" by decide)
    (show getQuestion [sampleProblem] 0 = some sampleProblem by decide)
    (show cacheHitSt none 0 "python" false = none from rfl)
    (show (fun _ => InfBehavior.streamed ["x\n"] (.errored "socket hang up"))
        (promptTextF sampleProblem (getLanguageDisplayNameF "python"))
      = .streamed ["x\n"] (.errored "socket hang up") from rfl)]
  decide

/-! ## Claim C8 -/

def isMeta : SEvent → Bool
  | .metadata _ _ _ _ => true
  | _ => false

def isData : SEvent → Bool
  | .dataEv _ _ => true
  | _ => false

def isTerminal : SEvent → Bool
  | .complete => true
  | .errorEv _ => true
  | _ => false

/-- The payloads of the data events, in emission order. -/
def dataTexts (evs : List SEvent) : List String :=
  evs.filterMap fun e =>
    match e with
    | .dataEv t _ => some t
    | _ => none

def concatData (evs : List SEvent) : String := String.join (dataTexts evs)

/-- The SSE well-formedness shape: at most one metadata event, before all
data events, and exactly one terminal event, last. -/
def StreamShape (evs : List SEvent) : Prop :=
  ∃ (m ds : List SEvent) (t : SEvent),
    evs = m ++ ds ++ [t] ∧ m.length ≤ 1 ∧ (∀ e ∈ m, isMeta e = true) ∧
    (∀ e ∈ ds, isData e = true) ∧ isTerminal t = true

theorem shape_error (e : String) : StreamShape [.errorEv e] :=
  ⟨[], [], .errorEv e, by simp, by simp, by simp, by simp, rfl⟩

theorem shape_cache (ttl lang disp txt : String) :
    StreamShape [.metadata ttl lang disp true, .dataEv txt false, .complete] :=
  ⟨[.metadata ttl lang disp true], [.dataEv txt false], .complete,
    by simp, by simp, by simp [isMeta], by simp [isData], rfl⟩

theorem shape_fallback (ttl lang disp txt : String) :
    StreamShape [.metadata ttl lang disp false, .dataEv txt true, .complete] :=
  ⟨[.metadata ttl lang disp false], [.dataEv txt true], .complete,
    by simp, by simp, by simp [isMeta], by simp [isData], rfl⟩

theorem shape_gen (ttl lang disp : String) (frags : List String) (t : SEvent)
    (ht : isTerminal t = true) :
    StreamShape (.metadata ttl lang disp false ::
      frags.map (fun x => SEvent.dataEv x false) ++ [t]) := by
  refine ⟨[.metadata ttl lang disp false],
    frags.map (fun x => SEvent.dataEv x false), t, by simp, by simp,
    by simp [isMeta], ?_, ht⟩
  intro e he
  rcases List.mem_map.mp he with ⟨x, -, hx⟩
  rw [← hx]
  rfl

theorem emptyAppend (s : String) : "" ++ s = s := by
  rcases s with ⟨d⟩
  rfl

theorem joinSingle (s : String) : String.join [s] = s := by
  show ("" ++ s) = s
  exact emptyAppend s

theorem concatData_three (a b c txt : String) (d e : Bool) :
    concatData [.metadata a b c d, .dataEv txt e, .complete] = txt := by
  rw [concatData]
  rw [show dataTexts [SEvent.metadata a b c d, SEvent.dataEv txt e, SEvent.complete]
    = [txt] from rfl]
  exact joinSingle txt

theorem dataTexts_map (frags : List String) :
    dataTexts (frags.map (fun x => SEvent.dataEv x false) ++ [SEvent.complete]) = frags := by
  induction frags with
  | nil => rfl
  | cons f fs ih =>
    show f :: dataTexts (fs.map (fun x => SEvent.dataEv x false) ++ [SEvent.complete])
      = f :: fs
    rw [ih]

theorem dataTexts_gen (a b c : String) (d : Bool) (frags : List String) :
    dataTexts (SEvent.metadata a b c d ::
      frags.map (fun x => SEvent.dataEv x false) ++ [SEvent.complete]) = frags := by
  show dataTexts (frags.map (fun x => SEvent.dataEv x false) ++ [SEvent.complete]) = frags
  exact dataTexts_map frags

theorem getLastApp (a b : SEvent) (l : List SEvent) :
    (a :: l ++ [b]).getLast? = some b := by
  rw [show a :: l ++ [b] = (a :: l) ++ [b] by simp]
  exact List.getLast?_concat _

/-- The completion/persistence property: whenever the stream ends with
`complete`, the concatenation of the data payloads is the full response
text — on a cache hit it is the stored text (store unchanged), otherwise
its sanitized form is exactly what was persisted. -/
def CompleteText (store : Option StoredResponse)
    (out : List SEvent × Option StoredResponse)
    (clean : String → String) : Prop :=
  out.1.getLast? = some SEvent.complete →
    (out.2 = store ∧ ∃ st, store = some st ∧ concatData out.1 = st.response) ∨
    (∃ st', out.2 = some st' ∧ st'.response = clean (concatData out.1))

/-- C8 for the fixed variant's streaming endpoint. -/
theorem c8F (questions : List Problem) (store : Option StoredResponse)
    (now : String) (parse : ParseFn) (inf : String → InfBehavior)
    (index : Int) (language : String) (refresh : Bool) :
    StreamShape (explainStreamF questions store now parse inf index language refresh).1 ∧
    CompleteText store (explainStreamF questions store now parse inf index language refresh)
      cleanResponseTextF := by
  by_cases h0 : questions.length = 0
  · have he : explainStreamF questions store now parse inf index language refresh
        = ([.errorEv "Failed to load questions data"], store) := by
      unfold explainStreamF
      rw [if_pos h0]
    rw [he]
    exact ⟨shape_error _, fun h => by simp at h⟩
  · by_cases hlang : language = ""
    · have he : explainStreamF questions store now parse inf index language refresh
          = ([.errorEv "Language parameter is required"], store) := by
        unfold explainStreamF
        rw [if_neg h0, if_pos hlang]
      rw [he]
      exact ⟨shape_error _, fun h => by simp at h⟩
    · rcases hv : validateLanguageF language with e | nl
      · have he : explainStreamF questions store now parse inf index language refresh
            = ([.errorEv e], store) := by
          unfold explainStreamF
          rw [if_neg h0, if_neg hlang]
          simp only [hv]
        rw [he]
        exact ⟨shape_error _, fun h => by simp at h⟩
      · rcases hQ : getQuestion questions index with _ | q
        · have he : explainStreamF questions store now parse inf index language refresh
              = ([.errorEv ("Question not found at index " ++ toString index)], store) := by
            unfold explainStreamF
            rw [if_neg h0, if_neg hlang]
            simp only [hv, hQ]
          rw [he]
          exact ⟨shape_error _, fun h => by simp at h⟩
        · rcases hhit : cacheHitSt store index nl refresh with _ | st
          · rcases hinf : inf (promptTextF q (getLanguageDisplayNameF nl))
              with msg | ⟨chunks, ending⟩
            · rw [esF_unavail h0 hv hQ hhit hinf]
              refine ⟨shape_fallback _ _ _ _, fun _ => Or.inr ⟨_, rfl, ?_⟩⟩
              rw [concatData_three]
            · rcases ending with _ | msg
              · rw [esF_normal h0 hv hQ hhit hinf]
                refine ⟨shape_gen _ _ _ _ _ rfl, fun _ => Or.inr ⟨_, rfl, ?_⟩⟩
                rw [concatData, dataTexts_gen]
              · rw [esF_errored h0 hv hQ hhit hinf]
                refine ⟨shape_gen _ _ _ _ _ rfl, fun h => ?_⟩
                rw [getLastApp] at h
                simp at h
          · rw [esF_hit h0 hv hQ hhit]
            refine ⟨shape_cache _ _ _ _, fun _ => Or.inl ⟨rfl, st, (hitP_of_some hhit).1, ?_⟩⟩
            rw [concatData_three]

/-- C8 for the lenient variant's streaming endpoint. -/
theorem c8L (questions : List Problem) (store : Option StoredResponse)
    (now : String) (parse : ParseFn) (inf : String → InfBehavior)
    (index : Int) (language : String) (refresh : Bool) :
    StreamShape (explainStreamL questions store now parse inf index language refresh).1 ∧
    CompleteText store (explainStreamL questions store now parse inf index language refresh)
      cleanResponseTextL := by
  by_cases h0 : questions.length = 0
  · have he : explainStreamL questions store now parse inf index language refresh
        = ([.errorEv "Failed to load questions data"], store) := by
      unfold explainStreamL
      rw [if_pos h0]
    rw [he]
    exact ⟨shape_error _, fun h => by simp at h⟩
  · rcases hQ : getQuestion questions index with _ | q
    · have he : explainStreamL questions store now parse inf index language refresh
          = ([.errorEv ("Question not found at index " ++ toString index)], store) := by
        unfold explainStreamL
        rw [if_neg h0]
        simp only [hQ]
      rw [he]
      exact ⟨shape_error _, fun h => by simp at h⟩
    · rcases hhit : cacheHitSt store index (validateLanguageL language) refresh with _ | st
      · rcases hinf : inf (promptTextL q
            (getLanguageDisplayNameL (validateLanguageL language))
            (getLanguageSpecificContext (validateLanguageL language)))
          with msg | ⟨chunks, ending⟩
        · rw [esL_unavail h0 rfl hQ hhit hinf]
          refine ⟨shape_fallback _ _ _ _, fun _ => Or.inr ⟨_, rfl, ?_⟩⟩
          rw [concatData_three]
        · rcases ending with _ | msg
          · rw [esL_normal h0 rfl hQ hhit hinf]
            refine ⟨shape_gen _ _ _ _ _ rfl, fun _ => Or.inr ⟨_, rfl, ?_⟩⟩
            rw [concatData, dataTexts_gen]
          · rw [esL_errored h0 rfl hQ hhit hinf]
            refine ⟨shape_gen _ _ _ _ _ rfl, fun h => ?_⟩
            rw [getLastApp] at h
            simp at h
      · rw [esL_hit h0 rfl hQ hhit]
        refine ⟨shape_cache _ _ _ _, fun _ => Or.inl ⟨rfl, st, (hitP_of_some hhit).1, ?_⟩⟩
        rw [concatData_three]

/-- **C8.**  Every stream either variant emits is well formed: at most one
metadata event and only at the front, then data events whose concatenation
is the full response text, then exactly one terminal event (`complete` or
`error`) with nothing after it; and when the terminal is `complete`, the
concatenated data text is exactly the cached text served (cache hit, store
unchanged) or the text whose sanitized form was persisted. -/
theorem c8_stream_well_formed (questions : List Problem)
    (store : Option StoredResponse) (now : String) (parse : ParseFn)
    (inf : String → InfBehavior) (index : Int) (language : String)
    (refresh : Bool) :
    (StreamShape (explainStreamF questions store now parse inf index language refresh).1 ∧
      CompleteText store
        (explainStreamF questions store now parse inf index language refresh)
        cleanResponseTextF) ∧
    (StreamShape (explainStreamL questions store now parse inf index language refresh).1 ∧
      CompleteText store
        (explainStreamL questions store now parse inf index language refresh)
        cleanResponseTextL) :=
  ⟨c8F questions store now parse inf index language refresh,
   c8L questions store now parse inf index language refresh⟩

/-! ## Claim C3 -/

/-- Whether the inference endpoint starts streaming and then fails
mid-stream (the \x60response.data.on("error")\x60 path). -/
def midErrored : InfBehavior → Bool
  | .streamed _ (.errored _) => true
  | _ => false

/-- The final response text a streaming client reconstructs: the
concatenation of the data payloads, defined only when the stream ends
with \x60complete\x60. -/
def streamFinalText (evs : List SEvent) : Option String :=
  match evs.getLast? with
  | some .complete => some (concatData evs)
  | _ => none

/-- The final response text of the non-streaming endpoint: the
\x60response\x60 field of a success body. -/
def explainFinalText : Option ExplainResult → Option String
  | some (.json b) => some b.response
  | _ => none

theorem streamFinalText_complete {evs : List SEvent}
    (h : evs.getLast? = some SEvent.complete) :
    streamFinalText evs = some (concatData evs) := by
  unfold streamFinalText
  rw [h]

theorem streamFinalText_error {evs : List SEvent} {msg : String}
    (h : evs.getLast? = some (SEvent.errorEv msg)) :
    streamFinalText evs = none := by
  unfold streamFinalText
  rw [h]

theorem streamFinalText_three (a b c txt : String) (d e : Bool) :
    streamFinalText [.metadata a b c d, .dataEv txt e, .complete] = some txt := by
  rw [streamFinalText_complete (show ([SEvent.metadata a b c d, SEvent.dataEv txt e,
    SEvent.complete] : List SEvent).getLast? = some SEvent.complete from rfl)]
  rw [concatData_three]

/-- C3 for the fixed variant, assuming the inference endpoint never fails
mid-stream. -/
theorem c3F (questions : List Problem) (store : Option StoredResponse)
    (now : String) (parse : ParseFn) (inf : String → InfBehavior)
    (index : Int) (language : String) (refresh : Bool)
    (hne : ∀ p, midErrored (inf p) = false) :
    streamFinalText (explainStreamF questions store now parse inf index language refresh).1
      = explainFinalText (explainF questions store now parse inf index language refresh).1 := by
  by_cases h0 : questions.length = 0
  · have hs : explainStreamF questions store now parse inf index language refresh
        = ([.errorEv "Failed to load questions data"], store) := by
      unfold explainStreamF
      rw [if_pos h0]
    have he : explainF questions store now parse inf index language refresh
        = (some (.plain 500 "Failed to load questions data"), store) := by
      unfold explainF
      rw [if_pos h0]
    rw [hs, he]
    rfl
  · by_cases hlang : language = ""
    · have hs : explainStreamF questions store now parse inf index language refresh
          = ([.errorEv "Language parameter is required"], store) := by
        unfold explainStreamF
        rw [if_neg h0, if_pos hlang]
      have he : explainF questions store now parse inf index language refresh
          = (some (.plain 400 "Language parameter is required"), store) := by
        unfold explainF
        rw [if_neg h0, if_pos hlang]
      rw [hs, he]
      rfl
    · rcases hv : validateLanguageF language with e | nl
      · have hs : explainStreamF questions store now parse inf index language refresh
            = ([.errorEv e], store) := by
          unfold explainStreamF
          rw [if_neg h0, if_neg hlang]
          simp only [hv]
        have he : explainF questions store now parse inf index language refresh
            = (some (.plain 400 e), store) := by
          unfold explainF
          rw [if_neg h0, if_neg hlang]
          simp only [hv]
        rw [hs, he]
        rfl
      · rcases hQ : getQuestion questions index with _ | q
        · have hs : explainStreamF questions store now parse inf index language refresh
              = ([.errorEv ("Question not found at index " ++ toString index)], store) := by
            unfold explainStreamF
            rw [if_neg h0, if_neg hlang]
            simp only [hv, hQ]
          have he : explainF questions store now parse inf index language refresh
              = (some (.plain 404 ("Question not found at index " ++ toString index ++
                  ". Total questions: " ++ toString questions.length)), store) := by
            unfold explainF
            rw [if_neg h0, if_neg hlang]
            simp only [hv, hQ]
          rw [hs, he]
          rfl
        · rcases hhit : cacheHitSt store index nl refresh with _ | st
          · rcases hinf : inf (promptTextF q (getLanguageDisplayNameF nl))
              with msg | ⟨chunks, ending⟩
            · rw [esF_unavail h0 hv hQ hhit hinf, efF_unavail h0 hv hQ hhit hinf,
                streamFinalText_three]
              rfl
            · rcases ending with _ | msg
              · rw [esF_normal h0 hv hQ hhit hinf, efF_normal h0 hv hQ hhit hinf,
                  streamFinalText_complete (getLastApp _ _ _), concatData, dataTexts_gen]
                rfl
              · have hx := hne (promptTextF q (getLanguageDisplayNameF nl))
                rw [hinf] at hx
                exact Bool.noConfusion hx
          · rw [esF_hit h0 hv hQ hhit, efF_hit h0 hv hQ hhit, streamFinalText_three]
            rfl

/-- C3 for the lenient variant, unconditionally: on a mid-stream failure
its streaming endpoint errors and its non-streaming endpoint produces no
response at all (the rejected promise escapes the catch), so neither has
a final text. -/
theorem c3L (questions : List Problem) (store : Option StoredResponse)
    (now : String) (parse : ParseFn) (inf : String → InfBehavior)
    (index : Int) (language : String) (refresh : Bool) :
    streamFinalText (explainStreamL questions store now parse inf index language refresh).1
      = explainFinalText (explainL questions store now parse inf index language refresh).1 := by
  by_cases h0 : questions.length = 0
  · have hs : explainStreamL questions store now parse inf index language refresh
        = ([.errorEv "Failed to load questions data"], store) := by
      unfold explainStreamL
      rw [if_pos h0]
    have he : explainL questions store now parse inf index language refresh
        = (some (.plain 500 "Failed to load questions data"), store) := by
      unfold explainL
      rw [if_pos h0]
    rw [hs, he]
    rfl
  · rcases hQ : getQuestion questions index with _ | q
    · have hs : explainStreamL questions store now parse inf index language refresh
          = ([.errorEv ("Question not found at index " ++ toString index)], store) := by
        unfold explainStreamL
        rw [if_neg h0]
        simp only [hQ]
      have he : explainL questions store now parse inf index language refresh
          = (some (.plain 404 ("Question not found at index " ++ toString index ++
              ". Total questions: " ++ toString questions.length)), store) := by
        unfold explainL
        rw [if_neg h0]
        simp only [hQ]
      rw [hs, he]
      rfl
    · rcases hhit : cacheHitSt store index (validateLanguageL language) refresh with _ | st
      · rcases hinf : inf (promptTextL q
            (getLanguageDisplayNameL (validateLanguageL language))
            (getLanguageSpecificContext (validateLanguageL language)))
          with msg | ⟨chunks, ending⟩
        · rw [esL_unavail h0 rfl hQ hhit hinf, efL_unavail h0 rfl hQ hhit hinf,
            streamFinalText_three]
          rfl
        · rcases ending with _ | msg
          · rw [esL_normal h0 rfl hQ hhit hinf, efL_normal h0 rfl hQ hhit hinf,
              streamFinalText_complete (getLastApp _ _ _), concatData, dataTexts_gen]
            rfl
          · rw [esL_errored h0 rfl hQ hhit hinf, efL_errored h0 rfl hQ hhit hinf,
              streamFinalText_error (getLastApp _ _ _)]
            rfl
      · rw [esL_hit h0 rfl hQ hhit, efL_hit h0 rfl hQ hhit, streamFinalText_three]
        rfl

/-- **C3 (amended).**  For every request under identical catalog, cache
and inference behaviour, the concatenation of the streaming data payloads
equals the non-streaming endpoint final response text — for the fixed
variant whenever the inference endpoint does not fail mid-stream (on a
mid-stream failure the stream errors while /explain falls back), and for
the lenient variant unconditionally (there a mid-stream failure leaves
both endpoints without a final text). -/
theorem c3_stream_explain_agree (questions : List Problem)
    (store : Option StoredResponse) (now : String) (parse : ParseFn)
    (inf : String → InfBehavior) (index : Int) (language : String)
    (refresh : Bool) :
    ((∀ p, midErrored (inf p) = false) →
      streamFinalText
          (explainStreamF questions store now parse inf index language refresh).1
        = explainFinalText
          (explainF questions store now parse inf index language refresh).1) ∧
    streamFinalText
        (explainStreamL questions store now parse inf index language refresh).1
      = explainFinalText
        (explainL questions store now parse inf index language refresh).1 :=
  ⟨fun hne => c3F questions store now parse inf index language refresh hne,
   c3L questions store now parse inf index language refresh⟩

/-- Witness for C3 at a concrete mid-stream-error-free request. -/
theorem c3_witness :
    streamFinalText (explainStreamF [sampleProblem] none "T3" (fun l => .ok l)
        (fun _ => .streamed ["hello\n"] .normal) 0 "python" false).1
      = explainFinalText (explainF [sampleProblem] none "T3" (fun l => .ok l)
        (fun _ => .streamed ["hello\n"] .normal) 0 "python" false).1 :=
  (c3_stream_explain_agree [sampleProblem] none "T3" (fun l => .ok l)
      (fun _ => .streamed ["hello\n"] .normal) 0 "python" false).1
    (fun _ => rfl)

/-- Counterexample to the unamended C3: on a mid-stream transport error
the fixed variant streaming endpoint ends in an error event (no final
text) while its /explain endpoint falls back to a success body, so the
two final texts differ. -/
theorem c3_counterexample :
    streamFinalText (explainStreamF [sampleProblem] none "T3c" (fun l => .ok l)
        (fun _ => .streamed ["x\n"] (.errored "socket hang up")) 0 "python" false).1
      ≠ explainFinalText (explainF [sampleProblem] none "T3c" (fun l => .ok l)
        (fun _ => .streamed ["x\n"] (.errored "socket hang up")) 0 "python" false).1 := by
  rw [esF_errored
      (show ¬(([sampleProblem] : List Problem).length = 0) by decide)
      (show validateLanguageF "python" = .ok "python" by decide)
      (show getQuestion [sampleProblem] 0 = some sampleProblem by decide)
      (show cacheHitSt none 0 "python" false = none from rfl)
      (show (fun _ => InfBehavior.streamed ["x\n"] (.errored "socket hang up"))
          (promptTextF sampleProblem (getLanguageDisplayNameF "python"))
        = .streamed ["x\n"] (.errored "socket hang up") from rfl),
    efF_errored
      (show ¬(([sampleProblem] : List Problem).length = 0) by decide)
      (show validateLanguageF "python" = .ok "python" by decide)
      (show getQuestion [sampleProblem] 0 = some sampleProblem by decide)
      (show cacheHitSt none 0 "python" false = none from rfl)
      (show (fun _ => InfBehavior.streamed ["x\n"] (.errored "socket hang up"))
          (promptTextF sampleProblem (getLanguageDisplayNameF "python"))
        = .streamed ["x\n"] (.errored "socket hang up") from rfl)]
  rw [streamFinalText_error (getLastApp _ _ _)]
  intro hcontra
  exact Option.noConfusion hcontra

/-- **C10.**  In the lenient variant, on a successful model-backed
generation the non-streaming `/explain` endpoint persists the default
language "python" regardless of the request's validated language (its
`saveResponse` call omits the language argument), and its success body
carries only the title and response (no language, languageDisplay or
fromCache field), while the streaming endpoint persists the validated
language. -/
theorem c10_lenient_explain_drops_language (questions : List Problem)
    (store : Option StoredResponse) (now : String) (parse : ParseFn)
    (inf : String → InfBehavior) (index : Int) (language : String)
    (refresh : Bool) (q : Problem) (chunks : List String)
    (h0 : ¬(questions.length = 0))
    (hQ : getQuestion questions index = some q)
    (hhit : cacheHitSt store index (validateLanguageL language) refresh = none)
    (hinf : inf (promptTextL q (getLanguageDisplayNameL (validateLanguageL language))
      (getLanguageSpecificContext (validateLanguageL language)))
      = .streamed chunks .normal) :
    (∃ st, (explainL questions store now parse inf index language refresh).2
        = some st ∧ st.language = "python") ∧
    (∃ b, (explainL questions store now parse inf index language refresh).1
        = some (.json b) ∧ b.title = q.title ∧
        b.response = String.join (genFragments parse chunks) ∧
        b.language = none ∧ b.languageDisplay = none ∧ b.fromCache = none) ∧
    (∃ st, (explainStreamL questions store now parse inf index language refresh).2
        = some st ∧ st.language = validateLanguageL language) := by
  rw [efL_normal h0 rfl hQ hhit hinf, esL_normal h0 rfl hQ hhit hinf]
  exact ⟨⟨_, rfl, rfl⟩, ⟨_, rfl, rfl, rfl, rfl, rfl, rfl⟩, ⟨_, rfl, rfl⟩⟩

/-- Witness for C10: a concrete request for Java still stores "python"
via `/explain`, while `/explain-stream` stores "java". -/
theorem c10_witness :
    (∃ st, (explainL [sampleProblem] none "T10" (fun l => .ok l)
        (fun _ => .streamed ["hi\n"] .normal) 0 "java" false).2 = some st ∧
      st.language = "python") ∧
    (∃ st, (explainStreamL [sampleProblem] none "T10" (fun l => .ok l)
        (fun _ => .streamed ["hi\n"] .normal) 0 "java" false).2 = some st ∧
      st.language = validateLanguageL "java") :=
  ⟨(c10_lenient_explain_drops_language [sampleProblem] none "T10" (fun l => .ok l)
      (fun _ => .streamed ["hi\n"] .normal) 0 "java" false sampleProblem ["hi\n"]
      (by decide) (by decide) rfl rfl).1,
   (c10_lenient_explain_drops_language [sampleProblem] none "T10" (fun l => .ok l)
      (fun _ => .streamed ["hi\n"] .normal) 0 "java" false sampleProblem ["hi\n"]
      (by decide) (by decide) rfl rfl).2.2⟩

/-- Witness for C8 at a concrete request. -/
theorem c8_witness :
    StreamShape (explainStreamF [sampleProblem] none "T4" (fun l => .ok l)
        (fun _ => .streamed ["hello\n"] .normal) 0 "python" false).1 :=
  (c8_stream_well_formed [sampleProblem] none "T4" (fun l => .ok l)
      (fun _ => .streamed ["hello\n"] .normal) 0 "python" false).1.1

end SenSyntax
